import Mathlib

/-!
Verification of the BookReader EPUB-TTS backend's caching and job subsystem.

The Python services (`app/services/tts_service.py`, `app/services/task_service.py`,
`app/api.py`) are embedded shallowly below: byte strings are `List Nat`, the audio
directory is an association list from file path to bytes, the JSON cache index and
the persisted task table are association lists, machine text is `String`, and the
external speech-synthesis provider is an explicit function parameter.  Floating
point `rate`/`pitch` parameters enter the cache key only through their Python
`repr`, so the model carries them as those decimal strings.  `hashlib.sha256` is
embedded as a full executable SHA-256 over byte lists.
-/

set_option maxRecDepth 100000

namespace BookReader

/-! ## Bytes and a tiny file-system model -/

/-- Byte strings: each element is a byte value `< 256` (not enforced by the type;
the source never inspects byte values). -/
abbrev Bytes := List Nat

/-- The audio directory plus the rest of the data directory, as a flat map from
file path to contents.  `none` on lookup means the file does not exist. -/
abbrev FS := List (String × Bytes)

def FS.lookup (fs : FS) (path : String) : Option Bytes :=
  match fs with
  | [] => none
  | (p, b) :: rest => if p = path then some b else FS.lookup rest path

/-- `os.path.exists` for the modelled directory. -/
def FS.existsFile (fs : FS) (path : String) : Bool :=
  (FS.lookup fs path).isSome

/-- Writing a file (mode `'wb'`): replaces any previous contents. -/
def FS.write (fs : FS) (path : String) (b : Bytes) : FS :=
  match fs with
  | [] => [(path, b)]
  | (p, old) :: rest => if p = path then (p, b) :: rest else (p, old) :: FS.write rest path b

/-- `os.remove`. -/
def FS.remove (fs : FS) (path : String) : FS :=
  match fs with
  | [] => []
  | (p, old) :: rest => if p = path then rest else (p, old) :: FS.remove rest path

/-- `str.strip()` over the character list (Python strips Unicode whitespace;
the texts handled here use the ASCII whitespace Lean's `Char.isWhitespace`
covers). -/
def stripChars (l : List Char) : List Char :=
  ((l.dropWhile Char.isWhitespace).reverse.dropWhile Char.isWhitespace).reverse

/-- `str.strip()`. -/
def pyStrip (s : String) : String :=
  String.mk (stripChars s.data)

/-! ## SHA-256 (embedding of `hashlib.sha256`)

All words are `Nat` reduced modulo `2 ^ 32`. -/

def w32 (x : Nat) : Nat := x % 4294967296

def rotr (n x : Nat) : Nat := w32 ((x >>> n) ||| (x <<< (32 - n)))

def bigSigma0 (x : Nat) : Nat := (rotr 2 x) ^^^ (rotr 13 x) ^^^ (rotr 22 x)

def bigSigma1 (x : Nat) : Nat := (rotr 6 x) ^^^ (rotr 11 x) ^^^ (rotr 25 x)

def smallSigma0 (x : Nat) : Nat := (rotr 7 x) ^^^ (rotr 18 x) ^^^ (x >>> 3)

def smallSigma1 (x : Nat) : Nat := (rotr 17 x) ^^^ (rotr 19 x) ^^^ (x >>> 10)

def sha256K : List Nat :=
  [1116352408, 1899447441, 3049323471, 3921009573,
   961987163, 1508970993, 2453635748, 2870763221,
   3624381080, 310598401, 607225278, 1426881987,
   1925078388, 2162078206, 2614888103, 3248222580,
   3835390401, 4022224774, 264347078, 604807628,
   770255983, 1249150122, 1555081692, 1996064986,
   2554220882, 2821834349, 2952996808, 3210313671,
   3336571891, 3584528711, 113926993, 338241895,
   666307205, 773529912, 1294757372, 1396182291,
   1695183700, 1986661051, 2177026350, 2456956037,
   2730485921, 2820302411, 3259730800, 3345764771,
   3516065817, 3600352804, 4094571909, 275423344,
   430227734, 506948616, 659060556, 883997877,
   958139571, 1322822218, 1537002063, 1747873779,
   1955562222, 2024104815, 2227730452, 2361852424,
   2428436474, 2756734187, 3204031479, 3329325298]

/-- The eight working variables of the compression function. -/
structure H8 where
  a : Nat
  b : Nat
  c : Nat
  d : Nat
  e : Nat
  f : Nat
  g : Nat
  h : Nat
deriving DecidableEq, Repr

def initH8 : H8 :=
  ⟨1779033703, 3144134277, 1013904242, 2773480762, 1359893119, 2600822924, 528734635, 1541459225⟩

/-- Message-schedule extension: `acc` holds the schedule so far in reverse. -/
def extendLoop : Nat → List Nat → List Nat
  | 0, acc => acc
  | n + 1, acc =>
    let w2 := acc.getD 1 0
    let w7 := acc.getD 6 0
    let w15 := acc.getD 14 0
    let w16 := acc.getD 15 0
    extendLoop n (w32 (smallSigma1 w2 + w7 + smallSigma0 w15 + w16) :: acc)

/-- The 64-entry message schedule of one 16-word block. -/
def schedule (block : List Nat) : List Nat :=
  (extendLoop 48 block.reverse).reverse

def compressStep (s : H8) (ki wi : Nat) : H8 :=
  let ch := (s.e &&& s.f) ^^^ ((s.e ^^^ 0xffffffff) &&& s.g)
  let t1 := w32 (s.h + bigSigma1 s.e + ch + ki + wi)
  let mj := (s.a &&& s.b) ^^^ (s.a &&& s.c) ^^^ (s.b &&& s.c)
  let t2 := w32 (bigSigma0 s.a + mj)
  ⟨w32 (t1 + t2), s.a, s.b, s.c, w32 (s.d + t1), s.e, s.f, s.g⟩

def compressBlock (hs : H8) (block : List Nat) : H8 :=
  let ws := schedule block
  let fin := (sha256K.zip ws).foldl (fun s kw => compressStep s kw.1 kw.2) hs
  ⟨w32 (hs.a + fin.a), w32 (hs.b + fin.b), w32 (hs.c + fin.c), w32 (hs.d + fin.d),
   w32 (hs.e + fin.e), w32 (hs.f + fin.f), w32 (hs.g + fin.g), w32 (hs.h + fin.h)⟩

/-- Big-endian bytes of `x`, `k` bytes wide. -/
def beBytes : Nat → Nat → List Nat
  | 0, _ => []
  | k + 1, x => (x / 256 ^ k % 256) :: beBytes k x

/-- SHA-256 padding: `0x80`, zeros to 56 mod 64, then the 64-bit bit length. -/
def padMessage (msg : List Nat) : List Nat :=
  let len := msg.length
  let r := (len + 1) % 64
  let zeros := if r ≤ 56 then 56 - r else 56 + 64 - r
  msg ++ [0x80] ++ List.replicate zeros 0 ++ beBytes 8 (len * 8)

/-- Big-endian 32-bit words from bytes (length assumed a multiple of 4). -/
def bytesToWords : List Nat → List Nat
  | a :: b :: c :: d :: rest => (a * 16777216 + b * 65536 + c * 256 + d) :: bytesToWords rest
  | _ => []

/-- Fold the compression function over 16-word chunks; `fuel` bounds recursion. -/
def compressChunks : Nat → H8 → List Nat → H8
  | 0, hs, _ => hs
  | _, hs, [] => hs
  | fuel + 1, hs, ws => compressChunks fuel (compressBlock hs (ws.take 16)) (ws.drop 16)

def sha256H8 (msg : List Nat) : H8 :=
  let ws := bytesToWords (padMessage msg)
  compressChunks ws.length initH8 ws

def hexDigitChar (n : Nat) : Char :=
  if n < 10 then Char.ofNat (48 + n) else Char.ofNat (87 + n)

/-- `k` lowercase hex digits of `x`, most significant first. -/
def hexChars : Nat → Nat → List Char
  | 0, _ => []
  | k + 1, x => hexDigitChar (x / 16 ^ k % 16) :: hexChars k x

/-- `hashlib.sha256(msg).hexdigest()`. -/
def sha256hex (msg : List Nat) : String :=
  let hs := sha256H8 msg
  String.mk (hexChars 8 hs.a ++ hexChars 8 hs.b ++ hexChars 8 hs.c ++ hexChars 8 hs.d ++
    hexChars 8 hs.e ++ hexChars 8 hs.f ++ hexChars 8 hs.g ++ hexChars 8 hs.h)

/-- UTF-8 encoding of one character (`str.encode('utf-8')`, per scalar value). -/
def charUtf8 (c : Char) : List Nat :=
  let n := c.toNat
  if n < 128 then [n]
  else if n < 2048 then [192 + n / 64, 128 + n % 64]
  else if n < 65536 then [224 + n / 4096, 128 + n / 64 % 64, 128 + n % 64]
  else [240 + n / 262144, 128 + n / 4096 % 64, 128 + n / 64 % 64, 128 + n % 64]

/-- `str.encode('utf-8')` over a whole string. -/
def strUtf8 (s : String) : List Nat :=
  s.data.flatMap charUtf8

/-! ## `AudioCache.generate_cache_key`

`generate_cache_key(text, voice, rate, pitch)` builds
`f"{text}|{voice}|{rate}|{pitch}"` and takes the first 16 hex digits of its
SHA-256.  `rate` and `pitch` are Python floats; the f-string renders them via
`repr`, which is injective on distinct float values, so the model receives the
rendered decimal strings `rateS`/`pitchS` directly. -/

/-- The pre-hash fingerprint string `f"{text}|{voice}|{rate}|{pitch}"`. -/
def cacheContent (text voice rateS pitchS : String) : String :=
  text ++ "|" ++ voice ++ "|" ++ rateS ++ "|" ++ pitchS

/-- `AudioCache.generate_cache_key`. -/
def generate_cache_key (text voice rateS pitchS : String) : String :=
  (sha256hex (strUtf8 (cacheContent text voice rateS pitchS))).take 16

example : generate_cache_key "0123456789abcdef" "v" "1.0" "1.0" = "5a055cd0b0efaa8a" := by
  decide

/-! ## Cache data model (`AudioCache`)

The cache index `data/audio/cache_index.json` is a JSON object mapping cache
keys to entry objects; Python dicts keep insertion order and have unique keys,
so the index is an association list updated in place.  ISO timestamps from
`datetime.now()` are abstracted as `Nat` clock values supplied by the caller. -/

/-- One `word_timestamps` element (`{"text", "offset", "duration"}`, ms). -/
structure WordTS where
  text : String
  offset : Nat
  duration : Nat
deriving DecidableEq, Repr

/-- One value of the cache index, as written by `AudioCache.save_to_cache`.
`book_id`/`chapter_href`/`paragraph_index` are the optional structural locator
keys, present only when `save_to_cache` received them (truthy / not-None). -/
structure CacheEntry where
  filename : String
  text_preview : String
  text_length : Nat
  voice : String
  rate : String
  pitch : String
  word_timestamps : List WordTS
  created_at : Nat
  last_accessed : Nat
  book_id : Option String
  chapter_href : Option String
  paragraph_index : Option Nat
deriving DecidableEq, Repr

/-- The cache index: key ↦ entry, insertion ordered. -/
abbrev CacheIndex := List (String × CacheEntry)

def CacheIndex.lookup (index : CacheIndex) (key : String) : Option CacheEntry :=
  match index with
  | [] => none
  | (k, e) :: rest => if k = key then some e else CacheIndex.lookup rest key

/-- `index[cache_key] = entry`: replace in place, or append a new key. -/
def CacheIndex.setEntry (index : CacheIndex) (key : String) (e : CacheEntry) : CacheIndex :=
  match index with
  | [] => [(key, e)]
  | (k, old) :: rest =>
    if k = key then (k, e) :: rest else (k, old) :: CacheIndex.setEntry rest key e

/-- `os.path.join(AUDIO_DIR, filename)`. -/
def audioPath (filename : String) : String :=
  "data/audio/" ++ filename

/-- `AudioCache.get_cached_entry`: a hit requires the key to be present *and*
its backing file to exist; a hit refreshes `last_accessed` and persists the
index.  Returns the (refreshed) entry and the updated index. -/
def get_cached_entry (index : CacheIndex) (fs : FS) (key : String) (now : Nat) :
    Option CacheEntry × CacheIndex :=
  match CacheIndex.lookup index key with
  | none => (none, index)
  | some entry =>
    if FS.existsFile fs (audioPath entry.filename) then
      let entry' := { entry with last_accessed := now }
      (some entry', CacheIndex.setEntry index key entry')
    else
      (none, index)

/-- `text[:100] + '...' if len(text) > 100 else text` (character count). -/
def textPreview (text : String) : String :=
  if text.length > 100 then text.take 100 ++ "..." else text

/-- `AudioCache.save_to_cache`: build the entry (locator fields kept only when
`book_id`/`chapter_href` are truthy and `paragraph_index` is not None) and store
it under `key`, overwriting any previous record. -/
def save_to_cache (index : CacheIndex) (key filename text voice rateS pitchS : String)
    (word_timestamps : List WordTS) (book_id chapter_href : Option String)
    (paragraph_index : Option Nat) (now : Nat) : CacheIndex :=
  let entry : CacheEntry :=
    { filename := filename
      text_preview := textPreview text
      text_length := text.length
      voice := voice
      rate := rateS
      pitch := pitchS
      word_timestamps := word_timestamps
      created_at := now
      last_accessed := now
      book_id := if book_id = some "" then none else book_id
      chapter_href := if chapter_href = some "" then none else chapter_href
      paragraph_index := paragraph_index }
  CacheIndex.setEntry index key entry

/-- One element of `AudioCache.get_chapter_cached_entries`' result: the entry
augmented with its key and resolved file path. -/
structure ChapterEntry where
  cache_key : String
  filepath : String
  entry : CacheEntry
deriving DecidableEq, Repr

/-- Sort key of `get_chapter_cached_entries`' result list. -/
def chapKey (x : ChapterEntry) : Nat :=
  x.entry.paragraph_index.getD 0

/-- Stable insertion used to model Python's stable `list.sort`. -/
def insertChap (x : ChapterEntry) : List ChapterEntry → List ChapterEntry
  | [] => [x]
  | y :: rest => if chapKey x ≤ chapKey y then x :: y :: rest else y :: insertChap x rest

/-- Stable sort by `paragraph_index` (any stable sort computes the same list as
Python's Timsort, so this insertion sort is an exact model). -/
def sortChapEntries : List ChapterEntry → List ChapterEntry
  | [] => []
  | x :: rest => insertChap x (sortChapEntries rest)

/-- The membership test of `get_chapter_cached_entries`' loop. -/
def chapMatches (fs : FS) (book_id chapter_href : String) (e : CacheEntry) : Bool :=
  e.book_id == some book_id && e.chapter_href == some chapter_href &&
    e.paragraph_index.isSome && FS.existsFile fs (audioPath e.filename)

/-- `AudioCache.get_chapter_cached_entries`: entries tagged with this
`(book_id, chapter_href)` locator and some `paragraph_index`, filtered to those
whose backing file exists, sorted by `paragraph_index` (Python's stable sort). -/
def get_chapter_cached_entries (index : CacheIndex) (fs : FS)
    (book_id chapter_href : String) : List ChapterEntry :=
  let matching := index.filter fun ke => chapMatches fs book_id chapter_href ke.2
  let entries := matching.map fun ke =>
    { cache_key := ke.1, filepath := audioPath ke.2.filename, entry := ke.2 }
  sortChapEntries entries

/-- Result shape of `AudioCache.get_cache_stats`.  The code reports the byte
total as `total_size_mb` (rounded megabytes); the model keeps the raw byte sum
the rounding is applied to. -/
structure CacheStats where
  total_entries : Nat
  total_size_bytes : Nat
  entries : List CacheEntry
deriving DecidableEq, Repr

/-- `AudioCache.get_cache_stats`: `total_entries` counts *every* index record
and `entries` lists *every* index record; only the size sum skips records whose
backing file is gone. -/
def get_cache_stats (index : CacheIndex) (fs : FS) : CacheStats :=
  { total_entries := index.length
    total_size_bytes :=
      (index.map fun ke => ((FS.lookup fs (audioPath ke.2.filename)).getD []).length).sum
    entries := index.map fun ke => ke.2 }

/-! ## `TTSService`: language detection and voice substitution -/

/-- `TTSService.detect_language`: first matching Unicode block wins. -/
def detect_language (text : String) : String :=
  if text.data.any (fun c => 0x4e00 ≤ c.toNat ∧ c.toNat ≤ 0x9fff) then "zh"
  else if text.data.any (fun c =>
    (0x3040 ≤ c.toNat ∧ c.toNat ≤ 0x309f) ∨ (0x30a0 ≤ c.toNat ∧ c.toNat ≤ 0x30ff)) then "ja"
  else if text.data.any (fun c => 0xac00 ≤ c.toNat ∧ c.toNat ≤ 0xd7af) then "ko"
  else "en"

/-- `TTSService.DEFAULT_VOICES`. -/
def DEFAULT_VOICES : List (String × String) :=
  [("zh", "zh-CN-XiaoxiaoNeural"), ("en", "en-US-JennyNeural"),
   ("ja", "ja-JP-NanamiNeural"), ("ko", "ko-KR-SunHiNeural")]

def assocLookup (m : List (String × String)) (k : String) : Option String :=
  match m with
  | [] => none
  | (k', v) :: rest => if k' = k then some v else assocLookup rest k

/-- `TTSService.get_default_voice`. -/
def get_default_voice (text : String) : String :=
  (assocLookup DEFAULT_VOICES (detect_language text)).getD "en-US-JennyNeural"

/-- `voice.split("-")[0].lower() if voice else ""`. -/
def voiceLang (voice : String) : String :=
  if voice = "" then "" else ((voice.splitOn "-").headD "").toLower

/-- The silent voice substitution at the top of `generate_audio` /
`generate_chapter_audio` / the book task: on language mismatch the requested
voice is replaced by the detected language's default voice. -/
def substituteVoice (text voice : String) : String :=
  if voiceLang voice ≠ detect_language text then get_default_voice text else voice

/-! ## Provider abstraction and the process-local memory cache -/

/-- The external `edge_tts` synthesis collaborator, abstracted as a
deterministic function of the streamed request: audio chunks (in stream order)
plus collected word timestamps, or `none` when the stream raises. -/
abbrev SynthFn := String → String → String → String → Option (List Bytes × List WordTS)

/-- Instrumentation record of one provider invocation.  `paragraph` is the
loop index at the smart-assembly call site (`none` for single-paragraph and
whole-chapter call sites). -/
structure ProviderCall where
  paragraph : Option Nat
  text : String
  voice : String
  rateS : String
  pitchS : String
deriving DecidableEq, Repr

/-- `generate_audio`'s result dict. -/
structure AudioResult where
  audioUrl : String
  cached : Bool
  wordTimestamps : List WordTS
deriving DecidableEq, Repr

/-- Memory-cache key: `(book_id, chapter_href, paragraph_index, voice, rate, pitch)`. -/
structure MemKey where
  book_id : String
  chapter_href : String
  paragraph_index : Nat
  voice : String
  rateS : String
  pitchS : String
deriving DecidableEq, Repr

/-- Modelled from the spec: `tts_service.py` calls a process-local
`memory_cache` object (`memory_cache.get` / `memory_cache.put`) whose defining
module is not among the analysed sources; the spec documents only the disk
`CacheStore` (§4.1) and is silent about this layer, so it is modelled minimally
from its two call sites as an exact-key in-memory map from the full request
tuple to the previously returned result. -/
abbrev MemCache := List (MemKey × AudioResult)

def MemCache.get (m : MemCache) (k : MemKey) : Option AudioResult :=
  match m with
  | [] => none
  | (k', v) :: rest => if k' = k then some v else MemCache.get rest k

def MemCache.put (m : MemCache) (k : MemKey) (v : AudioResult) : MemCache :=
  match m with
  | [] => [(k, v)]
  | (k', old) :: rest =>
    if k' = k then (k', v) :: rest else (k', old) :: MemCache.put rest k v

/-- The mutable state `generate_audio` and the assembler touch: the cache
index file, the audio directory, and the process-local memory cache. -/
structure TTSState where
  index : CacheIndex
  fs : FS
  mem : MemCache
deriving DecidableEq, Repr

/-! ## `TTSService.generate_audio` (interactive single-paragraph path) -/

/-- The truthiness test `if book_id and chapter_href is not None and
paragraph_index is not None` guarding both memory-cache accesses. -/
def memEligible (book_id chapter_href : Option String) (paragraph_index : Option Nat) : Bool :=
  book_id.getD "" != "" && chapter_href.isSome && paragraph_index.isSome

def memKeyOf (book_id chapter_href : Option String) (paragraph_index : Option Nat)
    (voice rateS pitchS : String) : MemKey :=
  ⟨book_id.getD "", chapter_href.getD "", paragraph_index.getD 0, voice, rateS, pitchS⟩

/-- `TTSService.generate_audio`.  Result, post state, and the provider-call
log.  Failure carries the Python exception's message (`ValueError("Text cannot
be empty")` is the spec's `InvalidInput`; a stream failure whose single retry
also fails — always, under a deterministic provider — is `SynthesisFailed`).
On a stream failure nothing has been written yet, so the state is returned
unchanged; on success with zero collected chunks the code falls back to
`communicate.save`, a second provider call producing the same (empty) audio. -/
def generate_audio (synth : SynthFn) (text voice rateS pitchS : String)
    (book_id chapter_href : Option String) (paragraph_index : Option Nat)
    (now : Nat) (σ : TTSState) :
    Except String AudioResult × TTSState × List ProviderCall :=
  if pyStrip text = "" then (.error "Text cannot be empty", σ, [])
  else
    let voice' := substituteVoice text voice
    let elig := memEligible book_id chapter_href paragraph_index
    let mkey := memKeyOf book_id chapter_href paragraph_index voice' rateS pitchS
    match if elig then MemCache.get σ.mem mkey else none with
    | some r => (.ok r, σ, [])
    | none =>
      let key := generate_cache_key text voice' rateS pitchS
      match get_cached_entry σ.index σ.fs key now with
      | (some e, index') =>
        let r : AudioResult :=
          { audioUrl := "/audio/" ++ e.filename, cached := true,
            wordTimestamps := e.word_timestamps }
        let mem' := if elig then MemCache.put σ.mem mkey r else σ.mem
        (.ok r, { σ with index := index', mem := mem' }, [])
      | (none, _) =>
        let call : ProviderCall := ⟨none, text, voice', rateS, pitchS⟩
        match synth text voice' rateS pitchS with
        | none => (.error "synthesis failed", σ, [call, call])
        | some (chunks, ts) =>
          let filename := key ++ ".mp3"
          let fs' := FS.write σ.fs (audioPath filename) chunks.flatten
          let index' := save_to_cache σ.index key filename text voice' rateS pitchS ts
            book_id chapter_href paragraph_index now
          let r : AudioResult :=
            { audioUrl := "/audio/" ++ filename, cached := false, wordTimestamps := ts }
          let mem' := if elig then MemCache.put σ.mem mkey r else σ.mem
          let calls := if chunks.isEmpty then [call, call] else [call]
          (.ok r, ⟨index', fs', mem'⟩, calls)

/-! ## `TTSService.generate_chapter_audio_smart` and concatenation -/

/-- `TTSService.concatenate_audio_files`: binary concatenation in list order;
an input path that does not exist contributes nothing. -/
def concatenate_audio_files (fs : FS) (files : List String) : Bytes :=
  (files.map fun f => (FS.lookup fs f).getD []).flatten

/-- `"".join(c for c in filename if c.isalnum() or c in "._- ").strip()` with
the `"chapter"` fallback (`isalnum` modelled over its ASCII range). -/
def sanitizeFilename (s : String) : String :=
  let t := String.mk (stripChars (s.data.filter fun c => c.isAlphanum || "._- ".contains c))
  if t = "" then "chapter" else t

def NatMap.lookup {β : Type} (m : List (Nat × β)) (k : Nat) : Option β :=
  match m with
  | [] => none
  | (k', v) :: rest => if k' = k then some v else NatMap.lookup rest k

def NatMap.set {β : Type} (m : List (Nat × β)) (k : Nat) (v : β) : List (Nat × β) :=
  match m with
  | [] => [(k, v)]
  | (k', old) :: rest =>
    if k' = k then (k', v) :: rest else (k', old) :: NatMap.set rest k v

/-- `{entry['paragraph_index']: entry for entry in cached_entries}` (later
duplicates overwrite earlier ones). -/
def buildCachedMap (entries : List ChapterEntry) : List (Nat × ChapterEntry) :=
  entries.foldl (fun m e => NatMap.set m (chapKey e) e) []

/-- Accumulator of the smart-assembly paragraph loop. -/
structure SmartAcc where
  σ : TTSState
  audio_files : List String
  generated : Nat
  calls : List ProviderCall
deriving DecidableEq, Repr

/-- The `for idx, text in enumerate(sentences)` loop of
`generate_chapter_audio_smart`: a cached index contributes its recorded file
path with no provider call; an uncached index is synthesized (no voice
substitution on this path), written under `{key}.mp3`, and indexed with the
chapter locator and empty timestamps; a failed synthesis is skipped. -/
def smartLoop (synth : SynthFn) (book_id chapter_href voice rateS pitchS : String)
    (now : Nat) (cachedMap : List (Nat × ChapterEntry)) :
    List (Nat × String) → SmartAcc → SmartAcc
  | [], acc => acc
  | (idx, text) :: rest, acc =>
    match NatMap.lookup cachedMap idx with
    | some ce =>
      smartLoop synth book_id chapter_href voice rateS pitchS now cachedMap rest
        { acc with audio_files := acc.audio_files ++ [ce.filepath] }
    | none =>
      let key := generate_cache_key text voice rateS pitchS
      let fname := key ++ ".mp3"
      let call : ProviderCall := ⟨some idx, text, voice, rateS, pitchS⟩
      match synth text voice rateS pitchS with
      | none =>
        smartLoop synth book_id chapter_href voice rateS pitchS now cachedMap rest
          { acc with calls := acc.calls ++ [call] }
      | some (chunks, _) =>
        let fs' := FS.write acc.σ.fs (audioPath fname) chunks.flatten
        let index' := save_to_cache acc.σ.index key fname text voice rateS pitchS []
          (some book_id) (some chapter_href) (some idx) now
        smartLoop synth book_id chapter_href voice rateS pitchS now cachedMap rest
          { σ := { acc.σ with fs := fs', index := index' }
            audio_files := acc.audio_files ++ [audioPath fname]
            generated := acc.generated + 1
            calls := acc.calls ++ [call] }

/-- `[s.strip() for s in sentences if s and s.strip()]`. -/
def trimNonblank (sentences : List String) : List String :=
  (sentences.map pyStrip).filter (fun s => s ≠ "")

/-- `generate_chapter_audio_smart`'s result dict. -/
structure SmartResult where
  downloadUrl : String
  filename : String
  size : Nat
  totalParagraphs : Nat
  cachedParagraphs : Nat
  generatedParagraphs : Nat
deriving DecidableEq, Repr

/-- `TTSService.generate_chapter_audio_smart`.  The output artifact is produced
by `concatenate_audio_files` reading the inputs back from disk; the model reads
them after the loop, which matches the code whenever the timestamped output
name differs from every input path (the code truncates the output file before
reading the inputs). -/
def generate_chapter_audio_smart (synth : SynthFn) (book_id chapter_href : String)
    (sentences : List String) (voice rateS pitchS filenameArg : String)
    (now : Nat) (σ : TTSState) :
    Except String SmartResult × TTSState × List ProviderCall :=
  if sentences = [] then (.error "No sentences provided", σ, [])
  else
    let ss := trimNonblank sentences
    if ss = [] then (.error "All sentences are empty", σ, [])
    else
      let total := ss.length
      let cached_entries := get_chapter_cached_entries σ.index σ.fs book_id chapter_href
      let cachedMap := buildCachedMap cached_entries
      let acc := smartLoop synth book_id chapter_href voice rateS pitchS now cachedMap
        ss.enum ⟨σ, [], 0, []⟩
      if acc.audio_files = [] then (.error "No audio generated", acc.σ, acc.calls)
      else
        let output_filename := sanitizeFilename filenameArg ++ "_" ++ toString now ++ ".mp3"
        let outBytes := concatenate_audio_files acc.σ.fs acc.audio_files
        let fs' := FS.write acc.σ.fs (audioPath output_filename) outBytes
        let r : SmartResult :=
          { downloadUrl := "/api/tts/download/" ++ output_filename
            filename := output_filename
            size := outBytes.length
            totalParagraphs := total
            cachedParagraphs := cachedMap.length
            generatedParagraphs := acc.generated }
        (.ok r, { acc.σ with fs := fs' }, acc.calls)

/-! ## `TaskManager` (`app/services/task_service.py`)

`data/tasks.json` holds `{"tasks": {id: task}}`; Python dicts are insertion
ordered, so both the in-memory table and the persisted file are association
lists.  `datetime.now().isoformat()` values are abstracted as `Nat` clocks
(ISO strings compare like their instants). -/

inductive TaskStatus where
  | pending
  | running
  | completed
  | failed
deriving DecidableEq, Repr

/-- The per-type `params` dict.  Fields are optional because different task
types store different keys (`book_audio_zip` has `temp_dir` and no
`processed_chapters`); `none` models an absent key. -/
structure TaskParams where
  book_id : Option String
  voice : Option String
  rateS : Option String
  pitchS : Option String
  output_filepath : Option String
  temp_dir : Option String
  processed_chapters : Option Nat
deriving DecidableEq, Repr

/-- The result dict `complete_task` stores for a finished `book_audio` job. -/
structure TaskResult where
  downloadUrl : String
  filename : String
  size : Nat
  bookTitle : String
  totalChapters : Nat
deriving DecidableEq, Repr

/-- One task record, as created by `TaskManager.create_task`. -/
structure Task where
  id : String
  type : String
  title : String
  params : TaskParams
  status : TaskStatus
  progress : Int
  progressText : String
  result : Option TaskResult
  error : Option String
  createdAt : Nat
  startedAt : Option Nat
  completedAt : Option Nat
deriving DecidableEq, Repr

abbrev TaskTable := List (String × Task)

def TaskTable.lookup (ts : TaskTable) (id : String) : Option Task :=
  match ts with
  | [] => none
  | (k, t) :: rest => if k = id then some t else TaskTable.lookup rest id

def TaskTable.set (ts : TaskTable) (id : String) (t : Task) : TaskTable :=
  match ts with
  | [] => [(id, t)]
  | (k, old) :: rest =>
    if k = id then (k, t) :: rest else (k, old) :: TaskTable.set rest id t

def TaskTable.remove (ts : TaskTable) (id : String) : TaskTable :=
  match ts with
  | [] => []
  | (k, old) :: rest => if k = id then rest else (k, old) :: TaskTable.remove rest id

/-- `TaskManager`'s mutable state: `_tasks`, the `_running_tasks` registry
(just the ids; the live handles are not modelled), and `data/tasks.json`
(`none` = the file does not exist). -/
structure TMState where
  tasks : TaskTable
  running : List String
  persisted : Option TaskTable
deriving DecidableEq, Repr

/-- `TaskManager._save_tasks`: rewrite the whole file from the table. -/
def save_tasks (s : TMState) : TMState :=
  { s with persisted := some s.tasks }

/-- `TaskManager._load_tasks`: read the persisted table (missing file ⇒ empty
table) and mark every `running` task `failed` with the standard
interrupted-by-restart error; no other record is touched.  The decode-error
branch (malformed JSON ⇒ empty table) is outside this model. -/
def load_tasks (file : Option TaskTable) : TaskTable :=
  match file with
  | none => []
  | some ts =>
    ts.map fun kt =>
      (kt.1,
        if kt.2.status = TaskStatus.running then
          { kt.2 with status := TaskStatus.failed, error := some "服务重启，任务中断" }
        else kt.2)

/-- `TaskManager.create_task` (the fresh uuid is supplied by the caller). -/
def create_task (s : TMState) (newId ttype : String) (params : TaskParams)
    (title : String) (now : Nat) : TMState :=
  let t : Task :=
    { id := newId, type := ttype, title := title, params := params
      status := TaskStatus.pending, progress := 0, progressText := "等待开始..."
      result := none, error := none, createdAt := now
      startedAt := none, completedAt := none }
  save_tasks { s with tasks := TaskTable.set s.tasks newId t }

/-- `TaskManager.update_task`: merge the keyword arguments (`f`) into the
record *only if the id is present*, then persist; otherwise do nothing. -/
def update_task (s : TMState) (id : String) (f : Task → Task) : TMState :=
  match TaskTable.lookup s.tasks id with
  | none => s
  | some t => save_tasks { s with tasks := TaskTable.set s.tasks id (f t) }

/-- `TaskManager.start_task`. -/
def start_task (s : TMState) (id : String) (now : Nat) : TMState :=
  update_task s id fun t => { t with status := TaskStatus.running, startedAt := some now }

/-- `TaskManager.complete_task`. -/
def complete_task (s : TMState) (id : String) (r : TaskResult) (now : Nat) : TMState :=
  update_task s id fun t =>
    { t with status := TaskStatus.completed, progress := 100, progressText := "完成"
             result := some r, completedAt := some now }

/-- `TaskManager.fail_task`. -/
def fail_task (s : TMState) (id : String) (err : String) (now : Nat) : TMState :=
  update_task s id fun t =>
    { t with status := TaskStatus.failed, error := some err, completedAt := some now }

/-- `TaskManager.update_progress`. -/
def update_progress (s : TMState) (id : String) (p : Int) (text : String) : TMState :=
  update_task s id fun t => { t with progress := p, progressText := text }

/-- `TaskManager.delete_task`: cancel and unregister any live handle, remove
the record and persist, returning `True`; on an unknown id return `False`
and change nothing. -/
def delete_task (s : TMState) (id : String) : Bool × TMState :=
  match TaskTable.lookup s.tasks id with
  | none => (false, s)
  | some _ =>
    (true, save_tasks
      { s with tasks := TaskTable.remove s.tasks id
               running := s.running.filter (· ≠ id) })

/-- Stable insertion for `get_all_tasks`' descending `createdAt` sort. -/
def insertTaskDesc (x : Task) : List Task → List Task
  | [] => [x]
  | y :: rest =>
    if y.createdAt ≤ x.createdAt then x :: y :: rest else y :: insertTaskDesc x rest

/-- Stable sort of the task values by `createdAt` descending. -/
def sortTasksDesc : List Task → List Task
  | [] => []
  | x :: rest => insertTaskDesc x (sortTasksDesc rest)

/-- `TaskManager.get_all_tasks`: values sorted by `createdAt` descending
(Python's stable sort with `reverse=True` keeps ties in insertion order). -/
def get_all_tasks (s : TMState) : List Task :=
  sortTasksDesc (s.tasks.map (·.2))

/-! ## `download_book_audio` (`app/api.py`): resume-or-create decision -/

/-- One table-of-contents node (`{"href", "label", "subitems"}`). -/
inductive TocItem where
  | node (href label : String) (subitems : List TocItem)

mutual

/-- One TOC node followed by its subtree, depth-first. -/
def collectItem : TocItem → List (String × String)
  | TocItem.node href label subs => (href, label) :: collectChapters subs

/-- `collect_chapters`: depth-first flattening of the TOC tree. -/
def collectChapters : List TocItem → List (String × String)
  | [] => []
  | x :: rest => collectItem x ++ collectChapters rest

end

/-- The resume-scan condition of `download_book_audio` (lines 433–441): type,
book id, `failed` status, truthy recorded output path, positive checkpoint and
an existing partial file.  The requested voice, rate and pitch appear nowhere
in it. -/
def resumablePred (fs : FS) (book_id : String) (t : Task) : Bool :=
  t.type == "book_audio" && t.params.book_id == some book_id &&
    t.status == TaskStatus.failed && t.params.output_filepath.getD "" != "" &&
    t.params.processed_chapters.getD 0 > 0 &&
    FS.existsFile fs (t.params.output_filepath.getD "")

/-- `os.path.basename`. -/
def basename (p : String) : String :=
  (p.splitOn "/").getLastD p

/-- `"".join(...)` sanitizer with the `"book"` fallback used for book titles. -/
def sanitizeBook (s : String) : String :=
  let t := String.mk (stripChars (s.data.filter fun c => c.isAlphanum || "._- ".contains c))
  if t = "" then "book" else t

/-- What the resume-or-create prologue of `download_book_audio` decides before
spawning the background task. -/
structure DownloadDecision where
  task_id : String
  resumed : Bool
  resume_from : Nat
  output_filepath : String
  output_filename : String
  tm : TMState
deriving DecidableEq, Repr

/-- The resume-or-create prologue of `download_book_audio`: scan
`get_all_tasks()` for the first resumable `failed` `book_audio` task for this
book; on a hit reuse its id and checkpoint, resetting status to `pending`,
`progress` to `0` and clearing `error`; otherwise create a fresh task with a
timestamped output name and checkpoint `0`.  (`newId` stands for the fresh
uuid of the create branch.) -/
def download_book_audio (tm : TMState) (fs : FS) (book_id voice rateS pitchS : String)
    (bookTitle : String) (now : Nat) (newId : String) : DownloadDecision :=
  match (get_all_tasks tm).find? (resumablePred fs book_id) with
  | some t =>
    let resume_from := t.params.processed_chapters.getD 0
    let ofp := t.params.output_filepath.getD ""
    let tm' := update_task tm t.id fun u =>
      { u with status := TaskStatus.pending, progress := 0
               progressText := "准备恢复下载...", error := none }
    ⟨t.id, true, resume_from, ofp, basename ofp, tm'⟩
  | none =>
    let output_filename := sanitizeBook bookTitle ++ "_" ++ toString now ++ ".mp3"
    let ofp := audioPath output_filename
    let params : TaskParams :=
      { book_id := some book_id, voice := some voice, rateS := some rateS
        pitchS := some pitchS, output_filepath := some ofp, temp_dir := none
        processed_chapters := some 0 }
    let tm' := create_task tm newId "book_audio" params
      ("生成《" ++ bookTitle ++ "》音频") now
    ⟨newId, false, 0, ofp, output_filename, tm'⟩

/-! ## `generate_book_audio_task`: the resumable whole-book run

The chapter-content collaborator `BookService.get_chapter_content` is
abstracted as `content : href → Option text` (`none` = it raised, which the
per-chapter `try` catches).  The direct `edge_tts` call is the same `SynthFn`
as above; `none` = the stream raised (also caught per chapter).  Progress
percentages are float-derived in the source
(`5 + int((processed / total) * 90)`); the model records the `processed`
count each bottom-of-loop `update_progress`/checkpoint write is derived
from instead of the rendered percent. -/

/-- Loop accumulator: bytes written to the open artifact so far, the
`has_audio` flag, the `processed` counter, the checkpoint values persisted via
`update_task` (one per bottom-of-loop write, equal to the `processed` count
also shown by the paired `update_progress`), and the provider-call log
(tagged with the chapter index). -/
structure BookRunAcc where
  fileBytes : Bytes
  hasAudio : Bool
  processed : Nat
  checkpoints : List Nat
  calls : List ProviderCall
deriving DecidableEq, Repr

/-- The chapter text actually synthesized: optional label prefix plus body. -/
def chapterFullText (label raw : String) : String :=
  if label ≠ "" then label ++ "。\n" ++ raw else raw

/-- The `for idx, chapter_info in enumerate(chapters_to_process)` loop.  A
chapter with `idx < resume_from` is skipped outright.  A fetch or synthesis
error is caught: the chapter contributes no bytes but still runs the
bottom-of-loop `processed += 1` / progress / checkpoint writes.  A chapter
whose stripped text is empty short-circuits with `processed += 1` *without*
the bottom-of-loop writes.  An audio chunk (even an empty one) sets
`has_audio`. -/
def bookRunLoop (content : String → Option String) (synth : SynthFn)
    (voiceReq rateS pitchS : String) (resume_from : Nat) :
    Nat → List (String × String) → BookRunAcc → BookRunAcc
  | _, [], acc => acc
  | idx, ch :: rest, acc =>
    if idx < resume_from then
      bookRunLoop content synth voiceReq rateS pitchS resume_from (idx + 1) rest acc
    else
      let next := fun (acc' : BookRunAcc) =>
        let processed := acc'.processed + 1
        bookRunLoop content synth voiceReq rateS pitchS resume_from (idx + 1) rest
          { acc' with processed := processed
                      checkpoints := acc'.checkpoints ++ [processed] }
      match content ch.1 with
      | none => next acc
      | some rawText =>
        let raw := pyStrip rawText
        if raw = "" then
          bookRunLoop content synth voiceReq rateS pitchS resume_from (idx + 1) rest
            { acc with processed := acc.processed + 1 }
        else
          let fullText := chapterFullText ch.2 raw
          let voice := substituteVoice fullText voiceReq
          let call : ProviderCall := ⟨some idx, fullText, voice, rateS, pitchS⟩
          match synth fullText voice rateS pitchS with
          | none => next { acc with calls := acc.calls ++ [call] }
          | some (chunks, _) =>
            next { acc with fileBytes := acc.fileBytes ++ chunks.flatten
                            hasAudio := acc.hasAudio || !chunks.isEmpty
                            calls := acc.calls ++ [call] }

/-- Outcome of one background run: `complete_task`'s result or `fail_task`'s
error message. -/
inductive RunOutcome where
  | completed (r : TaskResult)
  | failed (error : String)
deriving DecidableEq, Repr

structure BookRunResult where
  outcome : RunOutcome
  fs : FS
  acc : BookRunAcc
deriving DecidableEq, Repr

/-- `generate_book_audio_task` (the background coroutine of
`download_book_audio`).  The artifact is opened in append mode when resuming
(`has_audio` starts true) and write mode when fresh; after the loop, a run
that never saw an audio chunk deletes the artifact and fails with
`No audio generated`, otherwise the task completes with the file's size. -/
def generate_book_audio_task (content : String → Option String) (synth : SynthFn)
    (voiceReq rateS pitchS : String) (toc : List TocItem) (is_resume : Bool)
    (resume_from : Nat) (output_filepath output_filename bookTitle : String)
    (fs : FS) : BookRunResult :=
  match toc with
  | [] => ⟨RunOutcome.failed "Book has no chapters", fs, ⟨[], is_resume, resume_from, [], []⟩⟩
  | _ :: _ =>
    let chapters := collectChapters toc
    let total := chapters.length
    if total = 0 then ⟨RunOutcome.failed "No chapters found", fs, ⟨[], is_resume, resume_from, [], []⟩⟩
    else
      let init : Bytes := if is_resume then (FS.lookup fs output_filepath).getD [] else []
      let acc := bookRunLoop content synth voiceReq rateS pitchS resume_from 0 chapters
        ⟨init, is_resume, resume_from, [], []⟩
      let fsWritten := FS.write fs output_filepath acc.fileBytes
      if acc.hasAudio then
        ⟨RunOutcome.completed
          { downloadUrl := "/api/tts/download/" ++ output_filename
            filename := output_filename, size := acc.fileBytes.length
            bookTitle := bookTitle, totalChapters := total },
         fsWritten, acc⟩
      else
        ⟨RunOutcome.failed "No audio generated", FS.remove fsWritten output_filepath, acc⟩

/-! ## General helper lemmas -/

theorem strOfDataInj {a b : String} (h : a.data = b.data) : a = b := by
  cases a; cases b; exact congrArg String.mk h

instance exceptDecEq {ε α : Type} [DecidableEq ε] [DecidableEq α] :
    DecidableEq (Except ε α) := fun x y =>
  match x, y with
  | .ok a, .ok b =>
    if h : a = b then isTrue (by rw [h]) else isFalse (by intro he; cases he; exact h rfl)
  | .error a, .error b =>
    if h : a = b then isTrue (by rw [h]) else isFalse (by intro he; cases he; exact h rfl)
  | .ok _, .error _ => isFalse (by intro he; cases he)
  | .error _, .ok _ => isFalse (by intro he; cases he)

theorem lookup_map_task (g : Task → Task) (ts : TaskTable) (id : String) :
    TaskTable.lookup (ts.map fun kt => (kt.1, g kt.2)) id =
      (TaskTable.lookup ts id).map g := by
  induction ts with
  | nil => rfl
  | cons kt rest ih =>
    simp only [List.map_cons, TaskTable.lookup]
    by_cases hk : kt.1 = id <;> simp [hk, ih]

theorem mem_insertChap {x y : ChapterEntry} {l : List ChapterEntry} :
    y ∈ insertChap x l ↔ y = x ∨ y ∈ l := by
  induction l with
  | nil => simp [insertChap]
  | cons z rest ih =>
    simp only [insertChap]
    split
    · simp [or_comm, or_assoc, or_left_comm]
    · simp [ih]
      tauto

theorem mem_sortChapEntries {y : ChapterEntry} {l : List ChapterEntry} :
    y ∈ sortChapEntries l ↔ y ∈ l := by
  induction l with
  | nil => simp [sortChapEntries]
  | cons z rest ih => simp [sortChapEntries, mem_insertChap, ih]

/-! ## Claim C8 — `computeKey` determinism and per-input sensitivity -/

/-- C8 counterexample: two *distinct* texts whose 16-hex-digit truncated
SHA-256 cache keys coincide for identical voice/rate/pitch, refuting
"changing any one of the four inputs … yields a different key".  (Found by a
birthday search over the real key function; both keys are
`941e5a71c13475aa`.) -/
theorem C8_counterexample :
    generate_cache_key "c98f5e530626448d" "v" "1.0" "1.0" =
      generate_cache_key "887e5a566022956a" "v" "1.0" "1.0" ∧
    ("c98f5e530626448d" : String) ≠ "887e5a566022956a" := by
  constructor
  · decide
  · decide

/-- C8 (amended): `computeKey` is a pure function of its four inputs (two
identical calls trivially agree), and changing any single input — the other
three held fixed — changes the pre-hash fingerprint string
`f"{text}|{voice}|{rate}|{pitch}"`; the 64-bit truncated key itself, however,
is not injective (see the collision above). -/
theorem C8_key_fingerprint (t t' v v' r r' p p' : String) :
    (t ≠ t' → cacheContent t v r p ≠ cacheContent t' v r p) ∧
    (v ≠ v' → cacheContent t v r p ≠ cacheContent t v' r p) ∧
    (r ≠ r' → cacheContent t v r p ≠ cacheContent t v r' p) ∧
    (p ≠ p' → cacheContent t v r p ≠ cacheContent t v r p') := by
  refine ⟨fun hne heq => hne ?_, fun hne heq => hne ?_,
          fun hne heq => hne ?_, fun hne heq => hne ?_⟩ <;>
    [skip; skip; skip; skip] <;>
    (have hd := congrArg String.data heq
     simp only [cacheContent, String.data_append, List.append_assoc] at hd)
  · exact strOfDataInj (List.append_cancel_right hd)
  · exact strOfDataInj (List.append_cancel_right
      (List.append_cancel_left (List.append_cancel_left hd)))
  · exact strOfDataInj (List.append_cancel_right
      (List.append_cancel_left (List.append_cancel_left
        (List.append_cancel_left (List.append_cancel_left hd)))))
  · exact strOfDataInj
      (List.append_cancel_left (List.append_cancel_left
        (List.append_cancel_left (List.append_cancel_left
          (List.append_cancel_left (List.append_cancel_left hd))))))

/-- Witness for `C8_key_fingerprint` at concrete inputs. -/
theorem C8_key_fingerprint_witness :
    cacheContent "a" "v" "1.0" "2.0" ≠ cacheContent "b" "v" "1.0" "2.0" ∧
    cacheContent "a" "v" "1.0" "2.0" ≠ cacheContent "a" "w" "1.0" "2.0" ∧
    cacheContent "a" "v" "1.0" "2.0" ≠ cacheContent "a" "v" "1.5" "2.0" ∧
    cacheContent "a" "v" "1.0" "2.0" ≠ cacheContent "a" "v" "1.0" "2.5" :=
  let h := C8_key_fingerprint "a" "b" "v" "w" "1.0" "1.5" "2.0" "2.5"
  ⟨h.1 (by decide), h.2.1 (by decide), h.2.2.1 (by decide), h.2.2.2 (by decide)⟩

/-! ## Claim C9 — restart reclassification of `running` jobs -/

/-- C9: loading the persisted task table reclassifies exactly the `running`
records to `failed` with the standard interrupted-by-restart message
(`"服务重启，任务中断"`), leaving `pending`/`completed`/`failed` records byte-for-byte
unchanged; the reclassification is a pure function of the persisted table, so
no external process table is consulted. -/
theorem C9_restart_reclassification (file : TaskTable) (id : String) :
    TaskTable.lookup (load_tasks (some file)) id =
      (TaskTable.lookup file id).map fun t =>
        if t.status = TaskStatus.running then
          { t with status := TaskStatus.failed, error := some "服务重启，任务中断" }
        else t := by
  simp only [load_tasks]
  exact lookup_map_task
    (fun t => if t.status = TaskStatus.running then
      { t with status := TaskStatus.failed, error := some "服务重启，任务中断" }
      else t) file id

/-! ## Claim C10 — mutating operations on an unknown job id -/

/-- C10: on an id absent from the task table, `update_task` (hence
`start_task`, `complete_task`, `fail_task`, `update_progress`) is a silent
no-op — no record created, no error, in-memory and persisted tables both
untouched — and `delete_task` returns `False` changing nothing. -/
theorem C10_missing_id_noop (s : TMState) (id : String) (f : Task → Task)
    (now : Nat) (r : TaskResult) (err : String) (p : Int) (txt : String)
    (h : TaskTable.lookup s.tasks id = none) :
    update_task s id f = s ∧ start_task s id now = s ∧
    complete_task s id r now = s ∧ fail_task s id err now = s ∧
    update_progress s id p txt = s ∧ delete_task s id = (false, s) := by
  simp [update_task, start_task, complete_task, fail_task, update_progress,
    delete_task, h]

/-- Witness for `C10_missing_id_noop` on the empty manager state. -/
theorem C10_missing_id_noop_witness :
    TaskTable.lookup (TMState.mk [] [] none).tasks "t" = none ∧
    delete_task (TMState.mk [] [] none) "t" = (false, TMState.mk [] [] none) :=
  ⟨rfl, (C10_missing_id_noop (TMState.mk [] [] none) "t" id 0
    ⟨"", "", 0, "", 0⟩ "e" 0 "" rfl).2.2.2.2.2⟩

/-! ## Claim C5 — entries whose artifact file is gone -/

/-- A concrete index record whose backing file does not exist. -/
def missingEntry : CacheEntry :=
  ⟨"gone.mp3", "t", 1, "v", "1.0", "1.0", [], 0, 0, none, none, none⟩

/-- C5 counterexample: with one index record whose artifact is absent,
`get_cache_stats` still *counts* it and *lists* it, so the stats query does
expose entries whose artifact file is missing. -/
theorem C5_counterexample :
    FS.existsFile [] (audioPath missingEntry.filename) = false ∧
    (get_cache_stats [("k", missingEntry)] []).total_entries = 1 ∧
    (get_cache_stats [("k", missingEntry)] []).entries = [missingEntry] := by
  decide

/-- C5 (amended): a key whose backing artifact is gone is a miss for
`get_cached_entry` (and the index is left untouched — no self-heal), and the
locator query filters such entries out; `get_cache_stats`, however, counts and
lists every index record regardless, restricting only the byte total to files
that exist. -/
theorem C5_missing_artifact (index : CacheIndex) (fs : FS) (key : String) (now : Nat)
    (e : CacheEntry) (b h : String)
    (hlook : CacheIndex.lookup index key = some e)
    (hgone : FS.existsFile fs (audioPath e.filename) = false) :
    get_cached_entry index fs key now = (none, index) ∧
    (∀ ce ∈ get_chapter_cached_entries index fs b h,
      FS.existsFile fs (audioPath ce.entry.filename) = true) ∧
    (get_cache_stats index fs).total_entries = index.length ∧
    (get_cache_stats index fs).entries = index.map (·.2) := by
  refine ⟨?_, ?_, rfl, rfl⟩
  · simp [get_cached_entry, hlook, hgone]
  · intro ce hce
    rw [get_chapter_cached_entries] at hce
    simp only [mem_sortChapEntries, List.mem_map, List.mem_filter] at hce
    obtain ⟨ke, ⟨-, hmatch⟩, rfl⟩ := hce
    simp only [chapMatches, Bool.and_eq_true] at hmatch
    exact hmatch.2

/-- Witness for `C5_missing_artifact` on a one-record index. -/
theorem C5_missing_artifact_witness :
    CacheIndex.lookup [("k", missingEntry)] "k" = some missingEntry ∧
    get_cached_entry [("k", missingEntry)] [] "k" 7 = (none, [("k", missingEntry)]) :=
  ⟨by decide, (C5_missing_artifact [("k", missingEntry)] [] "k" 7 missingEntry "b" "h"
    (by decide) (by decide)).1⟩

/-! ## Claim C6 — empty-input rejection before any provider call -/

/-- C6: blank single-paragraph text is rejected with `ValueError("Text cannot
be empty")` and an empty or all-blank paragraph list with `ValueError("No
sentences provided")`/`ValueError("All sentences are empty")` (the spec's
`InvalidInput`), in every case before any provider call (empty call log) and
with the cache index, audio directory and memory cache unchanged. -/
theorem C6_empty_input_rejected (synth : SynthFn) (text voice rateS pitchS : String)
    (b h : Option String) (i : Option Nat) (now : Nat) (σ : TTSState)
    (book chapter fname : String) (sentences : List String)
    (htext : pyStrip text = "")
    (hsent : trimNonblank sentences = []) :
    generate_audio synth text voice rateS pitchS b h i now σ =
      (.error "Text cannot be empty", σ, []) ∧
    generate_chapter_audio_smart synth book chapter sentences voice rateS pitchS fname now σ =
      (.error (if sentences = [] then "No sentences provided" else "All sentences are empty"),
        σ, []) := by
  constructor
  · simp [generate_audio, htext]
  · match sentences, hsent with
    | [], _ => simp [generate_chapter_audio_smart]
    | s :: rest, hsent => simp [generate_chapter_audio_smart, hsent]

/-- Witness for `C6_empty_input_rejected`: whitespace text and an all-blank
sentence list against the empty state. -/
theorem C6_empty_input_rejected_witness :
    pyStrip " " = "" ∧
    trimNonblank ["", "  "] = [] ∧
    generate_audio (fun _ _ _ _ => none) " " "v" "1.0" "1.0" none none none 0 ⟨[], [], []⟩ =
      (.error "Text cannot be empty", ⟨[], [], []⟩, []) :=
  ⟨by decide, by decide,
    (C6_empty_input_rejected (fun _ _ _ _ => none) " " "v" "1.0" "1.0" none none none 0
      ⟨[], [], []⟩ "b" "c" "f" ["", "  "] (by decide) (by decide)).1⟩

/-! ## Claim C1 — whole-book resume-or-create rule -/

theorem mem_insertTaskDesc {x y : Task} {l : List Task} :
    y ∈ insertTaskDesc x l ↔ y = x ∨ y ∈ l := by
  induction l with
  | nil => simp [insertTaskDesc]
  | cons z rest ih =>
    simp only [insertTaskDesc]
    split
    · simp [or_comm, or_assoc, or_left_comm]
    · simp [ih]
      tauto

theorem mem_sortTasksDesc {y : Task} {l : List Task} :
    y ∈ sortTasksDesc l ↔ y ∈ l := by
  induction l with
  | nil => simp [sortTasksDesc]
  | cons z rest ih => simp [sortTasksDesc, mem_insertTaskDesc, ih]

theorem taskTable_lookup_of_mem {ts : TaskTable} {t : Task}
    (hnd : (ts.map Prod.fst).Nodup) (hmem : (t.id, t) ∈ ts) :
    TaskTable.lookup ts t.id = some t := by
  induction ts with
  | nil => cases hmem
  | cons kt rest ih =>
    simp only [List.map_cons, List.nodup_cons] at hnd
    rcases List.mem_cons.mp hmem with heq | hrest
    · cases heq
      simp [TaskTable.lookup]
    · have hkey : kt.1 ≠ t.id := by
        intro hk
        exact hnd.1 (hk ▸ (List.mem_map.mpr ⟨(t.id, t), hrest, rfl⟩))
      simp only [TaskTable.lookup, if_neg hkey]
      exact ih hnd.2 hrest

theorem taskTable_lookup_set_self (ts : TaskTable) (id : String) (u : Task) :
    TaskTable.lookup (TaskTable.set ts id u) id = some u := by
  induction ts with
  | nil => simp [TaskTable.set, TaskTable.lookup]
  | cons kt rest ih =>
    simp only [TaskTable.set]
    split
    · simp_all [TaskTable.lookup]
    · simp only [TaskTable.lookup]
      rw [if_neg (by assumption)]
      exact ih

/-- C1 (amended): the resume scan of `download_book_audio` reuses a prior job
exactly when the task list (sorted by `createdAt` descending) contains a
`failed` `book_audio` job for the *same book* with a truthy recorded output
path, checkpoint > 0 and an existing partial artifact — the requested voice,
rate and pitch are *not* compared (third conjunct: the decision is identical
under any voice/rate/pitch).  On reuse the job id, checkpoint and recorded
params are preserved, the status is reset to `pending` and `error` cleared,
while `progress` is reset to `0` (not preserved). -/
theorem C1_resume_rule (tm : TMState) (fs : FS)
    (book_id voice rateS pitchS bookTitle : String) (now : Nat) (newId : String)
    (hnd : (tm.tasks.map Prod.fst).Nodup)
    (hwf : ∀ kt ∈ tm.tasks, (kt : String × Task).2.id = kt.1) :
    (download_book_audio tm fs book_id voice rateS pitchS bookTitle now newId).resumed =
      ((get_all_tasks tm).find? (resumablePred fs book_id)).isSome ∧
    (∀ t, (get_all_tasks tm).find? (resumablePred fs book_id) = some t →
      (download_book_audio tm fs book_id voice rateS pitchS bookTitle now newId).task_id = t.id ∧
      (download_book_audio tm fs book_id voice rateS pitchS bookTitle now newId).resume_from =
        t.params.processed_chapters.getD 0 ∧
      (download_book_audio tm fs book_id voice rateS pitchS bookTitle now newId).output_filepath =
        t.params.output_filepath.getD "" ∧
      t.type = "book_audio" ∧ t.params.book_id = some book_id ∧
      t.status = TaskStatus.failed ∧ 0 < t.params.processed_chapters.getD 0 ∧
      FS.existsFile fs (t.params.output_filepath.getD "") = true ∧
      TaskTable.lookup
          (download_book_audio tm fs book_id voice rateS pitchS bookTitle now newId).tm.tasks
          t.id =
        some { t with status := TaskStatus.pending, progress := 0,
                      progressText := "准备恢复下载...", error := none }) ∧
    (∀ v₂ r₂ p₂,
      (download_book_audio tm fs book_id v₂ r₂ p₂ bookTitle now newId).resumed =
        (download_book_audio tm fs book_id voice rateS pitchS bookTitle now newId).resumed ∧
      (download_book_audio tm fs book_id v₂ r₂ p₂ bookTitle now newId).task_id =
        (download_book_audio tm fs book_id voice rateS pitchS bookTitle now newId).task_id ∧
      (download_book_audio tm fs book_id v₂ r₂ p₂ bookTitle now newId).resume_from =
        (download_book_audio tm fs book_id voice rateS pitchS bookTitle now newId).resume_from) := by
  refine ⟨?_, ?_, ?_⟩
  · unfold download_book_audio
    cases hfind : (get_all_tasks tm).find? (resumablePred fs book_id) <;> simp
  · intro t hfind
    have hpred := List.find?_some hfind
    have hmem : t ∈ get_all_tasks tm := List.mem_of_find?_eq_some hfind
    simp only [resumablePred, Bool.and_eq_true, beq_iff_eq, bne_iff_ne, ne_eq,
      decide_eq_true_eq] at hpred
    obtain ⟨⟨⟨⟨⟨htype, hbook⟩, hstat⟩, hofp⟩, hck⟩, hex⟩ := hpred
    have hmem' : t ∈ tm.tasks.map (·.2) := by
      have := mem_sortTasksDesc.mp hmem
      simpa [get_all_tasks] using mem_sortTasksDesc.mp hmem
    obtain ⟨kt, hkt, hkt2⟩ := List.mem_map.mp hmem'
    have hid : kt = (t.id, t) := by
      have := hwf kt hkt
      cases kt
      simp only at hkt2
      subst hkt2
      simp_all
    subst hid
    have hlook : TaskTable.lookup tm.tasks t.id = some t := taskTable_lookup_of_mem hnd hkt
    unfold download_book_audio
    rw [hfind]
    refine ⟨rfl, rfl, rfl, htype, hbook, hstat, Nat.pos_of_ne_zero (by omega), hex, ?_⟩
    simp only [update_task, hlook, save_tasks]
    exact taskTable_lookup_set_self tm.tasks t.id _
  · intro v₂ r₂ p₂
    unfold download_book_audio
    cases hfind : (get_all_tasks tm).find? (resumablePred fs book_id) <;> simp

/-- A concrete failed `book_audio` job for book `"b1"` recorded with voice
`"A"`, checkpoint 3, and an existing partial artifact. -/
def c1Task : Task :=
  { id := "t1", type := "book_audio", title := "T"
    params :=
      { book_id := some "b1", voice := some "A", rateS := some "1.0"
        pitchS := some "1.0", output_filepath := some "data/audio/book_1.mp3"
        temp_dir := none, processed_chapters := some 3 }
    status := TaskStatus.failed, progress := 42, progressText := "x"
    result := none, error := some "boom", createdAt := 10
    startedAt := some 11, completedAt := some 12 }

def c1TM : TMState := { tasks := [("t1", c1Task)], running := [], persisted := none }

def c1FS : FS := [("data/audio/book_1.mp3", [1, 2, 3])]

/-- C1 counterexample: a new request for the same book but a *different* voice
(`"B"` vs the job's recorded `"A"`) still reuses the failed job (same id,
resumed), and its `progress` is reset to `0` rather than preserved — refuting
"a failed job differing in voice, rate or pitch is never reused". -/
theorem C1_counterexample :
    (download_book_audio c1TM c1FS "b1" "B" "1.5" "0.8" "T" 100 "new1").resumed = true ∧
    (download_book_audio c1TM c1FS "b1" "B" "1.5" "0.8" "T" 100 "new1").task_id = "t1" ∧
    c1Task.params.voice = some "A" ∧ ("A" : String) ≠ "B" ∧
    (TaskTable.lookup
        (download_book_audio c1TM c1FS "b1" "B" "1.5" "0.8" "T" 100 "new1").tm.tasks
        "t1").map Task.progress = some 0 ∧
    c1Task.progress = 42 := by
  decide

/-- Witness for `C1_resume_rule` on the one-job table. -/
theorem C1_resume_rule_witness :
    (download_book_audio c1TM c1FS "b1" "A" "1.0" "1.0" "T" 100 "new1").resumed =
      ((get_all_tasks c1TM).find? (resumablePred c1FS "b1")).isSome :=
  (C1_resume_rule c1TM c1FS "b1" "A" "1.0" "1.0" "T" 100 "new1"
    (by decide) (by decide)).1

/-! ## Book-run loop specification (for C2 and C4)

Per-chapter spec functions mirroring one non-skipped iteration of
`generate_book_audio_task`'s loop, and a closed form of the whole loop. -/

/-- Bytes one chapter contributes to the artifact (`[]` on fetch error, blank
text, or stream error). -/
def chapterOutBytes (content : String → Option String) (synth : SynthFn)
    (voiceReq rateS pitchS : String) (ch : String × String) : Bytes :=
  match content ch.1 with
  | none => []
  | some rawText =>
    let raw := pyStrip rawText
    if raw = "" then []
    else
      let fullText := chapterFullText ch.2 raw
      match synth fullText (substituteVoice fullText voiceReq) rateS pitchS with
      | none => []
      | some (chunks, _) => chunks.flatten

/-- Whether one chapter's stream yields at least one audio chunk. -/
def chapterHasChunk (content : String → Option String) (synth : SynthFn)
    (voiceReq rateS pitchS : String) (ch : String × String) : Bool :=
  match content ch.1 with
  | none => false
  | some rawText =>
    let raw := pyStrip rawText
    if raw = "" then false
    else
      let fullText := chapterFullText ch.2 raw
      match synth fullText (substituteVoice fullText voiceReq) rateS pitchS with
      | none => false
      | some (chunks, _) => !chunks.isEmpty

/-- Whether one chapter short-circuits on blank text (its iteration skips the
bottom-of-loop progress/checkpoint writes). -/
def chapterBlank (content : String → Option String) (ch : String × String) : Bool :=
  match content ch.1 with
  | none => false
  | some rawText => pyStrip rawText = ""

/-- Whether one chapter's iteration raises inside the `try` (fetch error, or
a stream error on non-blank text). -/
def chapterRaises (content : String → Option String) (synth : SynthFn)
    (voiceReq rateS pitchS : String) (ch : String × String) : Bool :=
  match content ch.1 with
  | none => true
  | some rawText =>
    let raw := pyStrip rawText
    if raw = "" then false
    else
      let fullText := chapterFullText ch.2 raw
      (synth fullText (substituteVoice fullText voiceReq) rateS pitchS).isNone

/-- Provider calls of one chapter, tagged with its index (one call whether the
stream succeeds or raises; none when the fetch fails or the text is blank). -/
def chapterCallsAt (content : String → Option String) (_synth : SynthFn)
    (voiceReq rateS pitchS : String) (idx : Nat) (ch : String × String) :
    List ProviderCall :=
  match content ch.1 with
  | none => []
  | some rawText =>
    let raw := pyStrip rawText
    if raw = "" then []
    else
      let fullText := chapterFullText ch.2 raw
      [⟨some idx, fullText, substituteVoice fullText voiceReq, rateS, pitchS⟩]

/-- Closed form of the loop's artifact bytes from position `idx` on, with
chapters below `resume_from` skipped. -/
def loopBytes (content : String → Option String) (synth : SynthFn)
    (voiceReq rateS pitchS : String) (rf : Nat) :
    Nat → List (String × String) → Bytes
  | _, [] => []
  | idx, ch :: rest =>
    (if idx < rf then [] else chapterOutBytes content synth voiceReq rateS pitchS ch) ++
      loopBytes content synth voiceReq rateS pitchS rf (idx + 1) rest

/-- Closed form of the loop's `has_audio` contribution. -/
def loopAudio (content : String → Option String) (synth : SynthFn)
    (voiceReq rateS pitchS : String) (rf : Nat) :
    Nat → List (String × String) → Bool
  | _, [] => false
  | idx, ch :: rest =>
    (!decide (idx < rf) && chapterHasChunk content synth voiceReq rateS pitchS ch) ||
      loopAudio content synth voiceReq rateS pitchS rf (idx + 1) rest

/-- Closed form of the number of chapters the loop counts as processed. -/
def loopCount (rf : Nat) : Nat → List (String × String) → Nat
  | _, [] => 0
  | idx, _ :: rest => (if idx < rf then 0 else 1) + loopCount rf (idx + 1) rest

/-- Closed form of the checkpoint values the loop persists (`p` = processed
count on entry). -/
def loopCkpts (content : String → Option String) (rf : Nat) :
    Nat → Nat → List (String × String) → List Nat
  | _, _, [] => []
  | idx, p, ch :: rest =>
    if idx < rf then loopCkpts content rf (idx + 1) p rest
    else
      (if chapterBlank content ch then [] else [p + 1]) ++
        loopCkpts content rf (idx + 1) (p + 1) rest

/-- Closed form of the loop's provider-call log. -/
def loopCalls (content : String → Option String) (synth : SynthFn)
    (voiceReq rateS pitchS : String) (rf : Nat) :
    Nat → List (String × String) → List ProviderCall
  | _, [] => []
  | idx, ch :: rest =>
    (if idx < rf then []
     else chapterCallsAt content synth voiceReq rateS pitchS idx ch) ++
      loopCalls content synth voiceReq rateS pitchS rf (idx + 1) rest

/-- The loop equals its closed form, component by component. -/
theorem bookRunLoop_spec (content : String → Option String) (synth : SynthFn)
    (voiceReq rateS pitchS : String) (rf : Nat) :
    ∀ (chs : List (String × String)) (idx : Nat) (acc : BookRunAcc),
    bookRunLoop content synth voiceReq rateS pitchS rf idx chs acc =
      { fileBytes := acc.fileBytes ++ loopBytes content synth voiceReq rateS pitchS rf idx chs
        hasAudio := acc.hasAudio || loopAudio content synth voiceReq rateS pitchS rf idx chs
        processed := acc.processed + loopCount rf idx chs
        checkpoints := acc.checkpoints ++ loopCkpts content rf idx acc.processed chs
        calls := acc.calls ++ loopCalls content synth voiceReq rateS pitchS rf idx chs } := by
  intro chs
  induction chs with
  | nil => intro idx acc; simp [bookRunLoop, loopBytes, loopAudio, loopCount, loopCkpts, loopCalls]
  | cons ch rest ih =>
    intro idx acc
    by_cases hskip : idx < rf
    · simp only [bookRunLoop, if_pos hskip, ih, loopBytes, loopAudio, loopCount, loopCkpts,
        loopCalls, decide_eq_true_eq]
      simp [hskip]
    · simp only [bookRunLoop, if_neg hskip, ih, loopBytes, loopAudio, loopCount, loopCkpts,
        loopCalls]
      unfold chapterOutBytes chapterHasChunk chapterBlank chapterCallsAt
      cases hc : content ch.1 with
      | none =>
        simp [hskip, Nat.add_comm, Nat.add_assoc, Nat.add_left_comm]
      | some rawText =>
        by_cases hraw : pyStrip rawText = ""
        · simp [hraw, hskip, Nat.add_assoc]
        · simp only [hraw, if_neg hraw]
          cases hs : synth (chapterFullText ch.2 (pyStrip rawText))
              (substituteVoice (chapterFullText ch.2 (pyStrip rawText)) voiceReq) rateS pitchS with
          | none =>
            simp [hskip, hraw, Nat.add_comm, Nat.add_assoc, Nat.add_left_comm]
          | some cw =>
            simp [hskip, hraw, Nat.add_comm, Nat.add_assoc, Nat.add_left_comm, Bool.or_assoc]

/-- discriminator: did the run call `complete_task`? -/
def RunOutcome.isCompleted : RunOutcome → Bool
  | RunOutcome.completed _ => true
  | RunOutcome.failed _ => false

section BookRunLemmas

variable (content : String → Option String) (synth : SynthFn)
variable (voiceReq rateS pitchS : String)

theorem loopBytes_drop (k : Nat) :
    ∀ (chs : List (String × String)) (idx : Nat),
    loopBytes content synth voiceReq rateS pitchS k idx chs =
      ((chs.drop (k - idx)).map
        (chapterOutBytes content synth voiceReq rateS pitchS)).flatten := by
  intro chs
  induction chs with
  | nil => intro idx; simp [loopBytes]
  | cons ch rest ih =>
    intro idx
    by_cases hskip : idx < k
    · have hd : k - idx = (k - (idx + 1)) + 1 := by omega
      simp [loopBytes, if_pos hskip, ih, hd]
    · have hd : k - idx = 0 := by omega
      have hd2 : k - (idx + 1) = 0 := by omega
      simp [loopBytes, if_neg hskip, ih, hd, hd2]

theorem loopAudio_any (k : Nat) :
    ∀ (chs : List (String × String)) (idx : Nat), k ≤ idx →
    loopAudio content synth voiceReq rateS pitchS k idx chs =
      chs.any (chapterHasChunk content synth voiceReq rateS pitchS) := by
  intro chs
  induction chs with
  | nil => intro idx _; simp [loopAudio]
  | cons ch rest ih =>
    intro idx hk
    have : ¬idx < k := by omega
    simp [loopAudio, this, ih (idx + 1) (by omega)]

theorem loopCount_all (k : Nat) :
    ∀ (chs : List (String × String)) (idx : Nat), k ≤ idx →
    loopCount k idx chs = chs.length := by
  intro chs
  induction chs with
  | nil => intro idx _; simp [loopCount]
  | cons ch rest ih =>
    intro idx hk
    have : ¬idx < k := by omega
    simp [loopCount, this, ih (idx + 1) (by omega), Nat.add_comm]

theorem chapterCallsAt_filter_threshold (k idx : Nat) (ch : String × String) :
    (chapterCallsAt content synth voiceReq rateS pitchS idx ch).filter
        (fun c => decide (k ≤ c.paragraph.getD 0)) =
      if idx < k then [] else chapterCallsAt content synth voiceReq rateS pitchS idx ch := by
  unfold chapterCallsAt
  cases content ch.1 with
  | none => simp
  | some rawText =>
    by_cases hraw : pyStrip rawText = ""
    · simp [hraw]
    · by_cases hk : idx < k
      · have : ¬k ≤ idx := by omega
        simp [hraw, hk, this]
      · have : k ≤ idx := by omega
        simp [hraw, hk, this]

theorem loopCalls_filter (k : Nat) :
    ∀ (chs : List (String × String)) (idx : Nat),
    loopCalls content synth voiceReq rateS pitchS k idx chs =
      (loopCalls content synth voiceReq rateS pitchS 0 idx chs).filter
        (fun c => decide (k ≤ c.paragraph.getD 0)) := by
  intro chs
  induction chs with
  | nil => intro idx; simp [loopCalls]
  | cons ch rest ih =>
    intro idx
    simp only [loopCalls, Nat.not_lt_zero, if_neg (by omega : ¬idx < 0), List.filter_append,
      ih (idx + 1)]
    simp [chapterCallsAt_filter_threshold content synth voiceReq rateS pitchS k idx ch]

theorem chapterBlank_of_raises {ch : String × String}
    (h : chapterRaises content synth voiceReq rateS pitchS ch = true) :
    chapterBlank content ch = false := by
  unfold chapterRaises at h
  unfold chapterBlank
  cases hc : content ch.1 with
  | none => rfl
  | some rawText =>
    rw [hc] at h
    by_cases hraw : pyStrip rawText = "" <;> simp_all

theorem mem_loopCkpts_of_not_blank (ckptCh : String × String) (ckpt : Nat) :
    ∀ (chs : List (String × String)) (idx p j : Nat),
    chs[idx]? = some ckptCh → chapterBlank content ckptCh = false →
    ckpt = p + idx + 1 →
    ckpt ∈ loopCkpts content 0 j p chs := by
  intro chs
  induction chs with
  | nil => intro idx p j hget; simp at hget
  | cons ch rest ih =>
    intro idx p j hget hblank hval
    match idx, hget with
    | 0, hget =>
      simp only [List.getElem?_cons_zero, Option.some.injEq] at hget
      subst hget
      simp [loopCkpts, hblank, hval]
    | idx' + 1, hget =>
      simp only [List.getElem?_cons_succ] at hget
      have := ih idx' (p + 1) (j + 1) hget hblank (by omega)
      simp only [loopCkpts, Nat.not_lt_zero, if_neg (by omega : ¬j < 0)]
      exact List.mem_append_right _ this

theorem collectChapters_length_pos (a : TocItem) (as : List TocItem) :
    0 < (collectChapters (a :: as)).length := by
  cases a; simp [collectChapters, collectItem]

end BookRunLemmas

theorem FS.lookup_write_self (fs : FS) (p : String) (b : Bytes) :
    FS.lookup (FS.write fs p b) p = some b := by
  induction fs with
  | nil => simp [FS.write, FS.lookup]
  | cons kv rest ih =>
    simp only [FS.write]
    split
    · simp_all [FS.lookup]
    · simp only [FS.lookup]
      rw [if_neg (by assumption)]
      exact ih

theorem FS.lookup_none_of_not_mem (fs : FS) (p : String)
    (h : p ∉ fs.map Prod.fst) : FS.lookup fs p = none := by
  induction fs with
  | nil => rfl
  | cons kv rest ih =>
    simp only [List.map_cons, List.mem_cons, not_or] at h
    have hne : kv.1 ≠ p := fun he => h.1 he.symm
    simp only [FS.lookup, if_neg hne]
    exact ih h.2

theorem FS.lookup_remove_write (fs : FS) (p : String) (b : Bytes)
    (hnd : (fs.map Prod.fst).Nodup) :
    FS.lookup (FS.remove (FS.write fs p b) p) p = none := by
  induction fs with
  | nil => simp [FS.write, FS.remove, FS.lookup]
  | cons kv rest ih =>
    simp only [List.map_cons, List.nodup_cons] at hnd
    simp only [FS.write]
    by_cases hk : kv.1 = p
    · simp only [if_pos hk, FS.remove, if_pos hk]
      exact FS.lookup_none_of_not_mem rest p (hk ▸ hnd.1)
    · simp only [if_neg hk, FS.remove, if_neg hk, FS.lookup, if_neg hk]
      exact ih hnd.2

/-! ## Claim C2 — resume refinement: resumed run ≡ uninterrupted run -/

theorem flatten_take_drop {α β : Type} (f : α → List β) (l : List α) (k : Nat) :
    ((l.take k).map f).flatten ++ ((l.drop k).map f).flatten = (l.map f).flatten := by
  rw [← List.flatten_append, ← List.map_append, List.take_append_drop]

/-- C2: a `bookAudio` job that failed after chapter `k` (checkpoint `k`,
partial artifact = the bytes of the first `k` chapters) and is re-requested
with identical book/voice/rate/pitch [1] appends to the existing artifact in
append mode — its final bytes are the partial prefix plus the suffix chapters
— [2] makes provider calls for exactly the chapters with index ≥ `k` (the
fresh run's calls filtered to index ≥ `k`), and [3,4] produces an artifact
byte-for-byte equal to an uninterrupted fresh run's, [5,6] with both runs
completing (given some chapter yields audio).  Empty chapters contribute no
bytes in either run, so the equality is exact. -/
theorem C2_resume_equals_full (content : String → Option String) (synth : SynthFn)
    (voiceReq rateS pitchS : String) (toc : List TocItem) (k : Nat)
    (fs0 fs1 : FS) (out ofn ofn2 title : String)
    (hk : 0 < k) (hkn : k ≤ (collectChapters toc).length) (htoc : toc ≠ [])
    (hpart : FS.lookup fs1 out = some
      (((collectChapters toc).take k).map
        (chapterOutBytes content synth voiceReq rateS pitchS)).flatten)
    (haudio : (collectChapters toc).any
      (chapterHasChunk content synth voiceReq rateS pitchS) = true) :
    (generate_book_audio_task content synth voiceReq rateS pitchS toc true k
        out ofn2 title fs1).acc.fileBytes =
      (((collectChapters toc).take k).map
        (chapterOutBytes content synth voiceReq rateS pitchS)).flatten ++
      (((collectChapters toc).drop k).map
        (chapterOutBytes content synth voiceReq rateS pitchS)).flatten ∧
    (generate_book_audio_task content synth voiceReq rateS pitchS toc true k
        out ofn2 title fs1).acc.calls =
      ((generate_book_audio_task content synth voiceReq rateS pitchS toc false 0
          out ofn title fs0).acc.calls).filter
        (fun c => decide (k ≤ c.paragraph.getD 0)) ∧
    FS.lookup (generate_book_audio_task content synth voiceReq rateS pitchS toc true k
        out ofn2 title fs1).fs out =
      some (((collectChapters toc).map
        (chapterOutBytes content synth voiceReq rateS pitchS)).flatten) ∧
    FS.lookup (generate_book_audio_task content synth voiceReq rateS pitchS toc false 0
        out ofn title fs0).fs out =
      some (((collectChapters toc).map
        (chapterOutBytes content synth voiceReq rateS pitchS)).flatten) ∧
    (generate_book_audio_task content synth voiceReq rateS pitchS toc true k
        out ofn2 title fs1).outcome.isCompleted = true ∧
    (generate_book_audio_task content synth voiceReq rateS pitchS toc false 0
        out ofn title fs0).outcome.isCompleted = true := by
  cases toc with
  | nil => exact absurd rfl htoc
  | cons a as =>
    have htot : ¬((collectChapters (a :: as)).length = 0) :=
      Nat.pos_iff_ne_zero.mp (collectChapters_length_pos a as)
    have hloopA := loopAudio_any content synth voiceReq rateS pitchS 0
      (collectChapters (a :: as)) 0 (Nat.le_refl 0)
    refine ⟨?_, ?_, ?_, ?_, ?_, ?_⟩ <;>
      simp only [generate_book_audio_task, if_neg htot, bookRunLoop_spec, Bool.true_or,
        Bool.false_or, Bool.false_eq_true, if_true, if_false, List.nil_append,
        List.append_nil, hpart, Option.getD_some, hloopA, haudio, RunOutcome.isCompleted]
    · rw [loopBytes_drop, Nat.sub_zero]
    · exact loopCalls_filter content synth voiceReq rateS pitchS k (collectChapters (a :: as)) 0
    · rw [FS.lookup_write_self, loopBytes_drop, Nat.sub_zero, flatten_take_drop]
    · rw [FS.lookup_write_self, loopBytes_drop, Nat.sub_zero, List.drop_zero]

/-- Two-chapter book for the C2 witness. -/
def c2toc : List TocItem := [TocItem.node "c1" "" [], TocItem.node "c2" "" []]

/-- Chapter contents for the C2 witness. -/
def c2content : String → Option String :=
  fun h => if h = "c1" then some "hello" else if h = "c2" then some "world" else none

/-- Deterministic provider for the C2 witness: one chunk whose single byte is
the text's length. -/
def c2synth : SynthFn := fun t _ _ _ => some ([[t.length]], [])

/-- File system holding the partial artifact after chapter 1 (bytes `[5]`). -/
def c2FS1 : FS := [("data/audio/b.mp3", [5])]

/-- Witness for `C2_resume_equals_full`: resuming the two-chapter book at
checkpoint 1 reproduces the uninterrupted artifact. -/
theorem C2_resume_equals_full_witness :
    0 < 1 ∧
    (generate_book_audio_task c2content c2synth "en-US-JennyNeural" "1.0" "1.0" c2toc true 1
      "data/audio/b.mp3" "b.mp3" "T" c2FS1).outcome.isCompleted = true :=
  ⟨by decide,
    (C2_resume_equals_full c2content c2synth "en-US-JennyNeural" "1.0" "1.0" c2toc 1
      [] c2FS1 "data/audio/b.mp3" "b0.mp3" "b.mp3" "T" (by decide) (by decide)
      (List.cons_ne_nil _ _) (by decide) (by decide)).2.2.2.2.1⟩

/-! ## Claim C4 — per-chapter error tolerance and `NoAudioGenerated` -/

/-- C4: in a fresh `bookAudio` run, [1] every chapter is counted as processed
— erroring chapters included, so an error never shortens the count; [2] a
chapter whose fetch or synthesis raises still gets its bottom-of-loop
checkpoint/progress write (value `idx + 1`); [3] the job's outcome depends
*only* on whether some chapter produced an audio chunk — an erroring chapter
cannot fail the job; and [4] when no chapter ever produced a chunk, the run
fails with `No audio generated` and the output artifact is deleted. -/
theorem C4_partial_failure (content : String → Option String) (synth : SynthFn)
    (voiceReq rateS pitchS : String) (toc : List TocItem)
    (out ofn title : String) (fs : FS) (idx : Nat) (ch : String × String)
    (htoc : toc ≠ []) (hnd : (fs.map Prod.fst).Nodup)
    (hch : (collectChapters toc)[idx]? = some ch)
    (hraise : chapterRaises content synth voiceReq rateS pitchS ch = true) :
    (generate_book_audio_task content synth voiceReq rateS pitchS toc false 0
        out ofn title fs).acc.processed = (collectChapters toc).length ∧
    (idx + 1) ∈ (generate_book_audio_task content synth voiceReq rateS pitchS toc false 0
        out ofn title fs).acc.checkpoints ∧
    (generate_book_audio_task content synth voiceReq rateS pitchS toc false 0
        out ofn title fs).outcome.isCompleted =
      (collectChapters toc).any (chapterHasChunk content synth voiceReq rateS pitchS) ∧
    ((collectChapters toc).any (chapterHasChunk content synth voiceReq rateS pitchS) = false →
      (generate_book_audio_task content synth voiceReq rateS pitchS toc false 0
          out ofn title fs).outcome = RunOutcome.failed "No audio generated" ∧
      FS.lookup (generate_book_audio_task content synth voiceReq rateS pitchS toc false 0
          out ofn title fs).fs out = none) := by
  cases toc with
  | nil => exact absurd rfl htoc
  | cons a as =>
    have htot : ¬((collectChapters (a :: as)).length = 0) :=
      Nat.pos_iff_ne_zero.mp (collectChapters_length_pos a as)
    have hloopA := loopAudio_any content synth voiceReq rateS pitchS 0
      (collectChapters (a :: as)) 0 (Nat.le_refl 0)
    have hloopC := loopCount_all 0 (collectChapters (a :: as)) 0 (Nat.le_refl 0)
    have hblank := chapterBlank_of_raises content synth voiceReq rateS pitchS hraise
    have hckpt := mem_loopCkpts_of_not_blank content ch (idx + 1)
      (collectChapters (a :: as)) idx 0 0 hch hblank (by omega)
    by_cases hA : (collectChapters (a :: as)).any
        (chapterHasChunk content synth voiceReq rateS pitchS) = true
    · refine ⟨?_, ?_, ?_, ?_⟩ <;>
        simp only [generate_book_audio_task, if_neg htot, bookRunLoop_spec, Bool.false_or,
          Bool.false_eq_true, if_false, hloopA, hA, if_true, List.nil_append,
          RunOutcome.isCompleted, Nat.zero_add, hloopC]
      · exact hckpt
      · intro hcontra
        simp at hcontra
    · have hA' : (collectChapters (a :: as)).any
          (chapterHasChunk content synth voiceReq rateS pitchS) = false :=
        Bool.not_eq_true _ ▸ Bool.eq_false_iff.mpr hA
      refine ⟨?_, ?_, ?_, ?_⟩ <;>
        simp only [generate_book_audio_task, if_neg htot, bookRunLoop_spec, Bool.false_or,
          Bool.false_eq_true, if_false, hloopA, hA', List.nil_append,
          RunOutcome.isCompleted, Nat.zero_add, hloopC]
      · exact hckpt
      · intro
        exact ⟨by trivial, FS.lookup_remove_write fs out _ hnd⟩

/-- Two-chapter book for the C4 witness: chapter `c1`'s fetch raises. -/
def c4toc : List TocItem := [TocItem.node "c1" "" [], TocItem.node "c2" "" []]

def c4content : String → Option String :=
  fun h => if h = "c2" then some "x" else none

def c4synth : SynthFn := fun t _ _ _ => some ([[t.length]], [])

/-- Witness for `C4_partial_failure`: the erroring first chapter is still
counted, so the run processes both chapters. -/
theorem C4_partial_failure_witness :
    (generate_book_audio_task c4content c4synth "en-US-JennyNeural" "1.0" "1.0" c4toc false 0
      "data/audio/b.mp3" "b.mp3" "T" []).acc.processed = (collectChapters c4toc).length :=
  (C4_partial_failure c4content c4synth "en-US-JennyNeural" "1.0" "1.0" c4toc
    "data/audio/b.mp3" "b.mp3" "T" [] 0 ("c1", "") (List.cons_ne_nil _ _)
    (by decide) (by decide) (by decide)).1

/-! ## Smart-assembly loop specification (for C7 and C3) -/

section SmartLemmas

variable (synth : SynthFn) (book_id chapter_href voice rateS pitchS : String) (now : Nat)
variable (cachedMap : List (Nat × ChapterEntry))

/-- State effect of one paragraph of the smart loop. -/
def smartStep (σ : TTSState) (p : Nat × String) : TTSState :=
  match NatMap.lookup cachedMap p.1 with
  | some _ => σ
  | none =>
    match synth p.2 voice rateS pitchS with
    | none => σ
    | some (chunks, _) =>
      let key := generate_cache_key p.2 voice rateS pitchS
      let fname := key ++ ".mp3"
      { σ with fs := FS.write σ.fs (audioPath fname) chunks.flatten
               index := save_to_cache σ.index key fname p.2 voice rateS pitchS []
                 (some book_id) (some chapter_href) (some p.1) now }

/-- File paths one paragraph contributes to `audio_files` (at most one). -/
def smartFilesAt (p : Nat × String) : List String :=
  match NatMap.lookup cachedMap p.1 with
  | some ce => [ce.filepath]
  | none =>
    match synth p.2 voice rateS pitchS with
    | none => []
    | some _ => [audioPath (generate_cache_key p.2 voice rateS pitchS ++ ".mp3")]

/-- `audio_files` contributed by a paragraph list, in list order. -/
def smartFiles : List (Nat × String) → List String
  | [] => []
  | p :: rest =>
    smartFilesAt synth voice rateS pitchS cachedMap p ++
      smartFiles rest

/-- Provider calls one paragraph emits (none when its index is cached). -/
def smartCallsAt (p : Nat × String) : List ProviderCall :=
  match NatMap.lookup cachedMap p.1 with
  | some _ => []
  | none => [⟨some p.1, p.2, voice, rateS, pitchS⟩]

/-- Call log contributed by a paragraph list. -/
def smartCalls : List (Nat × String) → List ProviderCall
  | [] => []
  | p :: rest =>
    smartCallsAt voice rateS pitchS cachedMap p ++ smartCalls rest

/-- `generated_count` contributed by a paragraph list. -/
def smartGen : List (Nat × String) → Nat
  | [] => 0
  | p :: rest =>
    (match NatMap.lookup cachedMap p.1 with
     | some _ => 0
     | none =>
       match synth p.2 voice rateS pitchS with
       | none => 0
       | some _ => 1) + smartGen rest

/-- The smart loop equals its closed form, component by component. -/
theorem smartLoop_spec :
    ∀ (ps : List (Nat × String)) (acc : SmartAcc),
    smartLoop synth book_id chapter_href voice rateS pitchS now cachedMap ps acc =
      { σ := ps.foldl (smartStep synth book_id chapter_href voice rateS pitchS now cachedMap) acc.σ
        audio_files := acc.audio_files ++ smartFiles synth voice rateS pitchS cachedMap ps
        generated := acc.generated + smartGen synth voice rateS pitchS cachedMap ps
        calls := acc.calls ++ smartCalls voice rateS pitchS cachedMap ps } := by
  intro ps
  induction ps with
  | nil => intro acc; simp [smartLoop, smartFiles, smartGen, smartCalls]
  | cons p rest ih =>
    intro acc
    simp only [smartLoop, smartFiles, smartGen, smartCalls, smartFilesAt, smartCallsAt,
      smartStep, List.foldl_cons]
    cases hl : NatMap.lookup cachedMap p.1 with
    | some ce => simp [ih, hl]
    | none =>
      cases hs : synth p.2 voice rateS pitchS with
      | none => simp [ih, hl, hs, Nat.add_assoc]
      | some cw => simp [ih, hl, hs, Nat.add_comm, Nat.add_assoc, Nat.add_left_comm]

/-- Bytes the assembled output contains for one paragraph, read back from the
post-loop state `σfin`. -/
def smartSegment (σfin : TTSState) (p : Nat × String) : Bytes :=
  match NatMap.lookup cachedMap p.1 with
  | some ce => (FS.lookup σfin.fs ce.filepath).getD []
  | none =>
    match synth p.2 voice rateS pitchS with
    | none => []
    | some _ =>
      (FS.lookup σfin.fs
        (audioPath (generate_cache_key p.2 voice rateS pitchS ++ ".mp3"))).getD []

theorem concat_smartFiles_eq_segments (σfin : TTSState) :
    ∀ ps : List (Nat × String),
    concatenate_audio_files σfin.fs (smartFiles synth voice rateS pitchS cachedMap ps) =
      (ps.map (smartSegment synth voice rateS pitchS cachedMap σfin)).flatten := by
  intro ps
  induction ps with
  | nil => simp [smartFiles, concatenate_audio_files]
  | cons p rest ih =>
    simp only [smartFiles, concatenate_audio_files, List.map_append, List.flatten_append,
      List.map_cons, List.flatten_cons] at ih ⊢
    rw [ih]
    congr 1
    unfold smartFilesAt smartSegment
    cases hl : NatMap.lookup cachedMap p.1 with
    | some ce => simp
    | none =>
      cases hs : synth p.2 voice rateS pitchS with
      | none => simp
      | some cw => simp

end SmartLemmas

/-! ## Claim C7 — order preservation in smart chapter assembly -/

/-- C7: when the smart assembly succeeds on an already-trimmed, non-blank
paragraph list, the bytes of its output artifact are exactly the per-paragraph
resolved segments — cached artifact for a cached index, freshly synthesized
artifact otherwise, nothing for a failed paragraph — concatenated strictly in
paragraph-index (enumeration) order, regardless of which paragraphs were cache
hits.  (`_hout` pins the corner case in which the timestamped output file is
itself one of the input artifacts, where the source would read back its own
partially written output.) -/
theorem C7_order_preservation (synth : SynthFn) (book chapter : String)
    (sentences : List String) (voice rateS pitchS fname : String) (now : Nat)
    (σ : TTSState) (r : SmartResult) (σ' : TTSState) (calls : List ProviderCall)
    (hne : sentences ≠ [])
    (hts : trimNonblank sentences = sentences)
    (hok : generate_chapter_audio_smart synth book chapter sentences voice rateS pitchS
      fname now σ = (.ok r, σ', calls))
    (_hout : audioPath r.filename ∉
      smartFiles synth voice rateS pitchS
        (buildCachedMap (get_chapter_cached_entries σ.index σ.fs book chapter))
        sentences.enum) :
    FS.lookup σ'.fs (audioPath r.filename) =
      some ((sentences.enum.map
        (smartSegment synth voice rateS pitchS
          (buildCachedMap (get_chapter_cached_entries σ.index σ.fs book chapter))
          (sentences.enum.foldl
            (smartStep synth book chapter voice rateS pitchS now
              (buildCachedMap (get_chapter_cached_entries σ.index σ.fs book chapter)))
            σ))).flatten) := by
  rw [generate_chapter_audio_smart] at hok
  simp only [hts, hne, if_false, if_neg hne, smartLoop_spec, List.nil_append] at hok
  by_cases hemp :
      smartFiles synth voice rateS pitchS
        (buildCachedMap (get_chapter_cached_entries σ.index σ.fs book chapter))
        sentences.enum = []
  · simp only [hemp, if_pos rfl] at hok
    exact absurd (congrArg Prod.fst hok) (by simp)
  · simp only [if_neg hemp] at hok
    have hr := congrArg Prod.fst hok
    have hσ := congrArg (fun x => x.2.1) hok
    simp only [Except.ok.injEq] at hr
    simp only at hσ
    rw [← hσ]
    simp only
    rw [← hr]
    simp only
    rw [FS.lookup_write_self]
    rw [concat_smartFiles_eq_segments]

/-- C7 witness fixture: paragraph P1 is pre-cached under locator
`("b", "h", 1)` with artifact bytes `[201]`. -/
def c7entry : CacheEntry :=
  ⟨"p1.mp3", "pone", 4, "v", "1.0", "1.0", [], 0, 0, some "b", some "h", some 1⟩

def c7σ : TTSState :=
  ⟨[("k1", c7entry)], [("data/audio/p1.mp3", [201])], []⟩

def c7sentences : List String := ["pzero", "pone", "ptwo"]

/-- Provider for the C7 witness: single chunk `[text length]`, so P0 ↦ `[5]`
and P2 ↦ `[4]`. -/
def c7synth : SynthFn := fun t _ _ _ => some ([[t.length]], [])

/-- Witness for `C7_order_preservation`: with `[P0, P1, P2]` and only P1
pre-cached (bytes `[201]`), the output artifact is `[5] ++ [201] ++ [4]` — the
segments appear in order P0, P1, P2. -/
theorem C7_order_preservation_witness :
    FS.lookup
      (generate_chapter_audio_smart c7synth "b" "h" c7sentences "v" "1.0" "1.0" "ch" 99
        c7σ).2.1.fs (audioPath "ch_99.mp3") = some [5, 201, 4] := by
  have hfst : (generate_chapter_audio_smart c7synth "b" "h" c7sentences "v" "1.0" "1.0"
      "ch" 99 c7σ).1 =
      Except.ok ⟨"/api/tts/download/ch_99.mp3", "ch_99.mp3", 3, 3, 1, 2⟩ := by
    decide
  have hok : generate_chapter_audio_smart c7synth "b" "h" c7sentences "v" "1.0" "1.0"
      "ch" 99 c7σ =
      ((generate_chapter_audio_smart c7synth "b" "h" c7sentences "v" "1.0" "1.0"
        "ch" 99 c7σ).1,
       (generate_chapter_audio_smart c7synth "b" "h" c7sentences "v" "1.0" "1.0"
        "ch" 99 c7σ).2.1,
       (generate_chapter_audio_smart c7synth "b" "h" c7sentences "v" "1.0" "1.0"
        "ch" 99 c7σ).2.2) := rfl
  rw [hfst] at hok
  have h := C7_order_preservation c7synth "b" "h" c7sentences "v" "1.0" "1.0" "ch" 99 c7σ
    ⟨"/api/tts/download/ch_99.mp3", "ch_99.mp3", 3, 3, 1, 2⟩
    (generate_chapter_audio_smart c7synth "b" "h" c7sentences "v" "1.0" "1.0"
      "ch" 99 c7σ).2.1
    (generate_chapter_audio_smart c7synth "b" "h" c7sentences "v" "1.0" "1.0"
      "ch" 99 c7σ).2.2
    (List.cons_ne_nil _ _) (by decide) hok (by decide)
  rw [h]
  decide

/-! ## Claim C3 — locator-tagged interactive synthesis is reused by assembly -/

theorem cacheIndex_lookup_setEntry_self (index : CacheIndex) (key : String) (e : CacheEntry) :
    CacheIndex.lookup (CacheIndex.setEntry index key e) key = some e := by
  induction index with
  | nil => simp [CacheIndex.setEntry, CacheIndex.lookup]
  | cons ke rest ih =>
    simp only [CacheIndex.setEntry]
    split
    · simp_all [CacheIndex.lookup]
    · simp only [CacheIndex.lookup]
      rw [if_neg (by assumption)]
      exact ih

theorem mem_setEntry_self (index : CacheIndex) (key : String) (e : CacheEntry) :
    (key, e) ∈ CacheIndex.setEntry index key e := by
  induction index with
  | nil => simp [CacheIndex.setEntry]
  | cons ke rest ih =>
    simp only [CacheIndex.setEntry]
    split
    · rename_i hk
      subst hk
      exact List.mem_cons_self _ _
    · exact List.mem_cons_of_mem _ ih

theorem natMap_lookup_set_self {β : Type} (m : List (Nat × β)) (k : Nat) (v : β) :
    NatMap.lookup (NatMap.set m k v) k = some v := by
  induction m with
  | nil => simp [NatMap.set, NatMap.lookup]
  | cons kv rest ih =>
    simp only [NatMap.set]
    split
    · simp_all [NatMap.lookup]
    · simp only [NatMap.lookup]
      rw [if_neg (by assumption)]
      exact ih

theorem natMap_lookup_set_ne {β : Type} (m : List (Nat × β)) (k k' : Nat) (v : β)
    (h : k' ≠ k) : NatMap.lookup (NatMap.set m k v) k' = NatMap.lookup m k' := by
  induction m with
  | nil =>
    simp only [NatMap.set, NatMap.lookup]
    rw [if_neg (fun hh => h hh.symm)]
  | cons kv rest ih =>
    simp only [NatMap.set]
    split
    · rename_i hk
      have hne : ¬kv.1 = k' := fun hh => h (hh.symm.trans hk)
      simp [NatMap.lookup, hne]
    · simp only [NatMap.lookup]
      split
      · rfl
      · exact ih

theorem foldl_cachedMap_isSome (i : Nat) :
    ∀ (entries : List ChapterEntry) (m : List (Nat × ChapterEntry)),
    ((∃ ce ∈ entries, chapKey ce = i) ∨ (NatMap.lookup m i).isSome = true) →
    (NatMap.lookup (entries.foldl (fun m e => NatMap.set m (chapKey e) e) m) i).isSome = true := by
  intro entries
  induction entries with
  | nil =>
    intro m hm
    rcases hm with ⟨ce, hce, _⟩ | hm
    · cases hce
    · simpa using hm
  | cons ce rest ih =>
    intro m hm
    simp only [List.foldl_cons]
    apply ih
    rcases hm with ⟨ce', hce', hkey⟩ | hm
    · rcases List.mem_cons.mp hce' with rfl | hrest
      · right
        rw [hkey, natMap_lookup_set_self]
        rfl
      · exact Or.inl ⟨ce', hrest, hkey⟩
    · by_cases hk : i = chapKey ce
      · right
        rw [hk, natMap_lookup_set_self]
        rfl
      · right
        rw [natMap_lookup_set_ne _ _ _ _ hk]
        exact hm

theorem buildCachedMap_isSome (entries : List ChapterEntry) (i : Nat)
    (hex : ∃ ce ∈ entries, chapKey ce = i) :
    (NatMap.lookup (buildCachedMap entries) i).isSome = true :=
  foldl_cachedMap_isSome i entries [] (Or.inl hex)

theorem smartCalls_not_cached (voice rateS pitchS : String)
    (cachedMap : List (Nat × ChapterEntry)) :
    ∀ (ps : List (Nat × String)) (c : ProviderCall),
    c ∈ smartCalls voice rateS pitchS cachedMap ps →
    ∀ j, c.paragraph = some j → NatMap.lookup cachedMap j = none := by
  intro ps
  induction ps with
  | nil => intro c hc; cases hc
  | cons p rest ih =>
    intro c hc j hj
    rcases List.mem_append.mp hc with hat | hrest
    · unfold smartCallsAt at hat
      cases hl : NatMap.lookup cachedMap p.1 with
      | some ce => rw [hl] at hat; cases hat
      | none =>
        rw [hl] at hat
        rcases List.mem_singleton.mp hat with rfl
        simp only at hj
        cases hj
        exact hl
    · exact ih c hrest j hj

/-- Any call the smart assembly logs comes from an uncached paragraph index:
whatever branch the run takes, a call tagged with index `i` forces a
cache-map miss at `i`. -/
theorem smart_calls_paragraph_cached (synth₂ : SynthFn) (b h : String)
    (sentences : List String) (voice₂ rateS₂ pitchS₂ fname : String) (now₂ : Nat)
    (σ₀ : TTSState) (c : ProviderCall)
    (hc : c ∈ (generate_chapter_audio_smart synth₂ b h sentences voice₂ rateS₂ pitchS₂
      fname now₂ σ₀).2.2)
    (i : Nat) (hcp : c.paragraph = some i) :
    NatMap.lookup (buildCachedMap (get_chapter_cached_entries σ₀.index σ₀.fs b h)) i = none := by
  rw [generate_chapter_audio_smart] at hc
  by_cases h0 : sentences = []
  · simp [h0] at hc
  · rw [if_neg h0] at hc
    by_cases h1 : trimNonblank sentences = []
    · simp [h1] at hc
    · simp only [h1, if_false, if_neg h1, smartLoop_spec, List.nil_append] at hc
      split at hc <;>
        exact smartCalls_not_cached voice₂ rateS₂ pitchS₂ _ _ c (by simpa using hc) i hcp

theorem mem_get_chapter_cached_entries {index : CacheIndex} {fs : FS} {b h key : String}
    {e : CacheEntry} (hmem : (key, e) ∈ index)
    (hmatch : chapMatches fs b h e = true) :
    (⟨key, audioPath e.filename, e⟩ : ChapterEntry) ∈
      get_chapter_cached_entries index fs b h := by
  rw [get_chapter_cached_entries]
  apply mem_sortChapEntries.mpr
  exact List.mem_map.mpr ⟨(key, e), List.mem_filter.mpr ⟨hmem, hmatch⟩, rfl⟩

theorem chapMatches_intro {fs : FS} {b h : String} {e : CacheEntry}
    (h1 : e.book_id = some b) (h2 : e.chapter_href = some h)
    (h3 : e.paragraph_index.isSome = true)
    (h4 : FS.existsFile fs (audioPath e.filename) = true) :
    chapMatches fs b h e = true := by
  simp [chapMatches, h1, h2, h3, h4]

set_option maxHeartbeats 1000000 in
/-- C3: a paragraph synthesized through the interactive path (memory and disk
miss, non-blank text, provider succeeds) with a supplied structural locator
`(b, h, i)` [1] succeeds, [2] stores a disk-cache entry carrying that locator,
[3] is found by the locator query over the resulting state, and [4] every
subsequent smart chapter assembly for `(b, h)` from that state makes zero
provider calls tagged with paragraph `i`.  The voice compared throughout is
the one after `generate_audio`'s silent language substitution; the process
memory cache is modelled from its call sites (its module is not among the
sources). -/
theorem C3_locator_cache_reuse (synth : SynthFn) (text voice rateS pitchS : String)
    (b h : String) (i now : Nat) (σ : TTSState)
    (chunks : List Bytes) (ts : List WordTS)
    (hb : b ≠ "") (hh : h ≠ "") (htext : ¬pyStrip text = "")
    (hmem : MemCache.get σ.mem
      (memKeyOf (some b) (some h) (some i) (substituteVoice text voice) rateS pitchS) = none)
    (hdisk : CacheIndex.lookup σ.index
      (generate_cache_key text (substituteVoice text voice) rateS pitchS) = none)
    (hsynth : synth text (substituteVoice text voice) rateS pitchS = some (chunks, ts)) :
    (generate_audio synth text voice rateS pitchS (some b) (some h) (some i) now σ).1 =
      Except.ok
        { audioUrl := "/audio/" ++
            (generate_cache_key text (substituteVoice text voice) rateS pitchS ++ ".mp3")
          cached := false
          wordTimestamps := ts } ∧
    (∃ e, CacheIndex.lookup
        (generate_audio synth text voice rateS pitchS (some b) (some h) (some i) now σ).2.1.index
        (generate_cache_key text (substituteVoice text voice) rateS pitchS) = some e ∧
      e.book_id = some b ∧ e.chapter_href = some h ∧ e.paragraph_index = some i) ∧
    (∃ ce ∈ get_chapter_cached_entries
        (generate_audio synth text voice rateS pitchS (some b) (some h) (some i) now σ).2.1.index
        (generate_audio synth text voice rateS pitchS (some b) (some h) (some i) now σ).2.1.fs
        b h,
      ce.cache_key = generate_cache_key text (substituteVoice text voice) rateS pitchS ∧
      ce.entry.paragraph_index = some i) ∧
    (∀ (synth₂ : SynthFn) (sentences : List String) (voice₂ rateS₂ pitchS₂ fname : String)
      (now₂ : Nat) (c : ProviderCall),
      c ∈ (generate_chapter_audio_smart synth₂ b h sentences voice₂ rateS₂ pitchS₂ fname now₂
        (generate_audio synth text voice rateS pitchS (some b) (some h) (some i) now σ).2.1).2.2 →
      c.paragraph ≠ some i) := by
  have helig : memEligible (some b) (some h) (some i) = true := by
    simp [memEligible, hb]
  have hred : generate_audio synth text voice rateS pitchS (some b) (some h) (some i) now σ =
      (Except.ok
        { audioUrl := "/audio/" ++
            (generate_cache_key text (substituteVoice text voice) rateS pitchS ++ ".mp3")
          cached := false
          wordTimestamps := ts },
       { index := save_to_cache σ.index
            (generate_cache_key text (substituteVoice text voice) rateS pitchS)
            (generate_cache_key text (substituteVoice text voice) rateS pitchS ++ ".mp3")
            text (substituteVoice text voice) rateS pitchS ts (some b) (some h) (some i) now
         fs := FS.write σ.fs
            (audioPath (generate_cache_key text (substituteVoice text voice) rateS pitchS ++ ".mp3"))
            chunks.flatten
         mem := MemCache.put σ.mem
            (memKeyOf (some b) (some h) (some i) (substituteVoice text voice) rateS pitchS)
            { audioUrl := "/audio/" ++
                (generate_cache_key text (substituteVoice text voice) rateS pitchS ++ ".mp3")
              cached := false
              wordTimestamps := ts } },
       if chunks.isEmpty then
         [⟨none, text, substituteVoice text voice, rateS, pitchS⟩,
          ⟨none, text, substituteVoice text voice, rateS, pitchS⟩]
       else [⟨none, text, substituteVoice text voice, rateS, pitchS⟩]) := by
    rw [generate_audio]
    rw [if_neg htext]
    simp only [helig, if_true, hmem, get_cached_entry, hdisk, hsynth]
  rw [hred]
  simp only [save_to_cache]
  have hquery :
      (⟨generate_cache_key text (substituteVoice text voice) rateS pitchS,
        audioPath (generate_cache_key text (substituteVoice text voice) rateS pitchS ++ ".mp3"),
        { filename := generate_cache_key text (substituteVoice text voice) rateS pitchS ++ ".mp3"
          text_preview := textPreview text
          text_length := text.length
          voice := substituteVoice text voice
          rate := rateS
          pitch := pitchS
          word_timestamps := ts
          created_at := now
          last_accessed := now
          book_id := if (some b : Option String) = some "" then none else some b
          chapter_href := if (some h : Option String) = some "" then none else some h
          paragraph_index := some i }⟩ : ChapterEntry) ∈
        get_chapter_cached_entries
          (CacheIndex.setEntry σ.index
            (generate_cache_key text (substituteVoice text voice) rateS pitchS)
            { filename := generate_cache_key text (substituteVoice text voice) rateS pitchS ++ ".mp3"
              text_preview := textPreview text
              text_length := text.length
              voice := substituteVoice text voice
              rate := rateS
              pitch := pitchS
              word_timestamps := ts
              created_at := now
              last_accessed := now
              book_id := if (some b : Option String) = some "" then none else some b
              chapter_href := if (some h : Option String) = some "" then none else some h
              paragraph_index := some i })
          (FS.write σ.fs
            (audioPath (generate_cache_key text (substituteVoice text voice) rateS pitchS ++ ".mp3"))
            chunks.flatten)
          b h := by
    apply mem_get_chapter_cached_entries (mem_setEntry_self _ _ _)
    apply chapMatches_intro
    · simp [hb]
    · simp [hh]
    · rfl
    · rw [FS.existsFile, FS.lookup_write_self]
      rfl
  refine ⟨trivial, ?_, ?_, ?_⟩
  · exact ⟨_, cacheIndex_lookup_setEntry_self _ _ _, by simp [hb], by simp [hh],
      by with_reducible rfl⟩
  · refine Exists.intro _ (And.intro hquery (And.intro ?_ ?_)) <;> with_reducible rfl
  · intro synth₂ sentences voice₂ rateS₂ pitchS₂ fname now₂ c hc hcp
    have hnone :
            NatMap.lookup
              (buildCachedMap (get_chapter_cached_entries
                (CacheIndex.setEntry σ.index
                  (generate_cache_key text (substituteVoice text voice) rateS pitchS)
                  { filename := generate_cache_key text (substituteVoice text voice) rateS pitchS ++ ".mp3"
                    text_preview := textPreview text
                    text_length := text.length
                    voice := substituteVoice text voice
                    rate := rateS
                    pitch := pitchS
                    word_timestamps := ts
                    created_at := now
                    last_accessed := now
                    book_id := if (some b : Option String) = some "" then none else some b
                    chapter_href := if (some h : Option String) = some "" then none else some h
                    paragraph_index := some i })
                (FS.write σ.fs
                  (audioPath (generate_cache_key text (substituteVoice text voice) rateS pitchS ++ ".mp3"))
                  chunks.flatten) b h)) i ≠ none := by
          intro hn
          have hisSome := buildCachedMap_isSome _ i ⟨_, hquery, by simp [chapKey]⟩
          rw [hn] at hisSome
          simp at hisSome
    exact hnone (smart_calls_paragraph_cached synth₂ b h sentences voice₂ rateS₂ pitchS₂
      fname now₂ _ c hc i hcp)

/-- Provider for the C3 witness. -/
def c3synth : SynthFn := fun t _ _ _ => some ([[t.length]], [])

/-- Witness for `C3_locator_cache_reuse`: an interactive synthesis of
`"hello"` tagged `("b", "h", 2)` against the empty state succeeds. -/
theorem C3_locator_cache_reuse_witness :
    (generate_audio c3synth "hello" "en-US-JennyNeural" "1.0" "1.0" (some "b") (some "h")
        (some 2) 5 ⟨[], [], []⟩).1 =
      Except.ok
        { audioUrl := "/audio/" ++
            (generate_cache_key "hello" (substituteVoice "hello" "en-US-JennyNeural")
              "1.0" "1.0" ++ ".mp3")
          cached := false
          wordTimestamps := [] } :=
  (C3_locator_cache_reuse c3synth "hello" "en-US-JennyNeural" "1.0" "1.0" "b" "h" 2 5
    ⟨[], [], []⟩ [[5]] [] (by decide) (by decide) (by decide) (by decide) (by decide)
    (by decide)).1

end BookReader
